import Mathlib

set_option maxRecDepth 8000

/-!
Shallow embedding of `src/infra/blazegraph/scripts/comic_to_sparql.py`
(comic JSON to SPARQL converter) and proofs about it.

Strings from the source are modelled as Lean `String`s; where character-level
reasoning is needed (the streaming scanner, `safe_uri`) we work on `List Char`.
Literal brace characters inside string literals are written with the escapes
\x7b and \x7d.

Modelling boundaries (documented once here):
* Python `str.strip` / `str.lower` are modelled on their ASCII behaviour
  (the inputs relevant to the program are ASCII).
* Python `json.loads` (a standard-library collaborator of the code under
  `src/`) is modelled as a JSON parser over exact fractions; the nonstandard
  extensions `NaN`/`Infinity` are not modelled, and `str()` of a non-integer
  number is rendered as an exact fraction rather than float repr (no claim
  depends on either).
* Floating point: the synthetic score formulas are modelled with exact
  fraction arithmetic (`Frac` below, with `Frac.toRat` linking to ℚ); the
  percent-formatting `%.3f`/`%.2f` is modelled as exact rounding with ties
  to even.
-/

/-- Exact fractions with explicit (possibly unnormalized) numerator and
denominator. Used to model Python's int/float arithmetic in the scoring
formulas with kernel-computable operations; every constructor used by the
embedding keeps the denominator positive. -/
structure Frac where
  num : Int
  den : Int

/-- An integer as a fraction. -/
def Frac.ofInt (n : Int) : Frac := ⟨n, 1⟩

/-- Flip signs so the denominator is nonnegative. -/
def Frac.fixSign (f : Frac) : Frac := if f.den < 0 then ⟨-f.num, -f.den⟩ else f

/-- Addition. -/
def Frac.add (a b : Frac) : Frac := ⟨a.num * b.den + b.num * a.den, a.den * b.den⟩

/-- Subtraction. -/
def Frac.sub (a b : Frac) : Frac := ⟨a.num * b.den - b.num * a.den, a.den * b.den⟩

/-- Multiplication. -/
def Frac.mul (a b : Frac) : Frac := ⟨a.num * b.num, a.den * b.den⟩

/-- Division. -/
def Frac.div (a b : Frac) : Frac := Frac.fixSign ⟨a.num * b.den, a.den * b.num⟩

/-- Negation. -/
def Frac.neg (a : Frac) : Frac := ⟨-a.num, a.den⟩

/-- Value-level strict comparison (correct when denominators are positive). -/
def Frac.blt (a b : Frac) : Bool := a.num * b.den < b.num * a.den

/-- Python `min(a, b)`: returns `b` when `b < a`, else `a`. -/
def pymin (a b : Frac) : Frac := if Frac.blt b a then b else a

/-- Python `max(a, b)`: returns `b` when `a < b`, else `a`. -/
def pymax (a b : Frac) : Frac := if Frac.blt a b then b else a

/-- Floor of the value (for a positive denominator). -/
def Frac.floor (f : Frac) : Int := f.num.fdiv f.den

/-- The rational value of a fraction. -/
def Frac.toRat (f : Frac) : ℚ := (f.num : ℚ) / (f.den : ℚ)

/-- JSON values as produced by Python's `json` module. Numbers are modelled
as exact fractions (Python uses int/float). -/
inductive Json where
  | null : Json
  | bool (b : Bool) : Json
  | num (q : Frac) : Json
  | str (s : String) : Json
  | arr (elems : List Json) : Json
  | obj (fields : List (String × Json)) : Json

/-- The opening-brace character, written via its code point. -/
def obrace : Char := Char.ofNat 123

/-- The closing-brace character, written via its code point. -/
def cbrace : Char := Char.ofNat 125

/-- Python `str.strip()` whitespace set (ASCII part). -/
def isPyWS (c : Char) : Bool :=
  c == ' ' || c == '\t' || c == '\n' || c == '\r' ||
  c == Char.ofNat 11 || c == Char.ofNat 12

/-- Python `str.lstrip()` on characters. -/
def lstripWS (cs : List Char) : List Char := cs.dropWhile isPyWS

/-- Python `str.rstrip()` on characters. -/
def rstripWSl (cs : List Char) : List Char := (cs.reverse.dropWhile isPyWS).reverse

/-- Python `str.strip()` on characters. -/
def stripWS (cs : List Char) : List Char := rstripWSl (lstripWS cs)

/-- Python `str.rstrip(',')` on characters. -/
def rstripComma (cs : List Char) : List Char :=
  (cs.reverse.dropWhile (fun c => c == ',')).reverse

/-- Field lookup in a decoded JSON object (first binding wins; the parser
below keeps at most one binding per key, like a Python dict). -/
def lookupField : List (String × Json) → String → Option Json
  | [], _ => none
  | (k, v) :: rest, key => if k == key then some v else lookupField rest key

/-- Python `d.get(key)`: outer `none` models the `AttributeError` raised when
the receiver is not a dict; inner `Option` is presence of the key. -/
def pyGet : Json → String → Option (Option Json)
  | .obj fs, k => some (lookupField fs k)
  | _, _ => none

/-- Python `d.get(key, dflt)`. -/
def pyGetD (j : Json) (k : String) (dflt : Json) : Option Json :=
  match pyGet j k with
  | none => none
  | some none => some dflt
  | some (some v) => some v

/-- Python subscript `d[key]`: error (none) on a non-dict or a missing key. -/
def pyIndex (j : Json) (k : String) : Option Json :=
  match j with
  | .obj fs => lookupField fs k
  | _ => none

/-- Python `key in d` for dict receivers (the code only uses it on dicts). -/
def hasKey (j : Json) (k : String) : Bool :=
  match j with
  | .obj fs => fs.any (fun kv => kv.1 == k)
  | _ => false

/-- Python truthiness of a decoded JSON value. -/
def truthy : Json → Bool
  | .null => false
  | .bool b => b
  | .num q => q.num != 0
  | .str s => s != ""
  | .arr l => !l.isEmpty
  | .obj l => !l.isEmpty

/-- Python iteration (`for x in v`): lists yield elements, strings yield
one-character strings, dicts yield their keys; other values raise (none). -/
def pyIter : Json → Option (List Json)
  | .arr l => some l
  | .str s => some (s.data.map (fun c => Json.str (String.mk [c])))
  | .obj fs => some (fs.map (fun kv => Json.str kv.1))
  | _ => none

/-- Values usable in Python arithmetic mixed with floats: numbers, and bools
(False/True act as 0/1); everything else raises TypeError (none). -/
def jnum : Json → Option Frac
  | .num q => some q
  | .bool b => some (Frac.ofInt (if b then 1 else 0))
  | _ => none

/-- Python slicing `v[:n]`; errors (none) on unsliceable values. -/
def pySlice (j : Json) (n : Nat) : Option Json :=
  match j with
  | .str s => some (Json.str (String.mk (s.data.take n)))
  | .arr l => some (Json.arr (l.take n))
  | _ => none

/-- Rendering of a number as Python would render it: integers exactly;
non-integers are rendered as an exact fraction (Python would use float
repr — no claim exercises this branch). -/
def numStr (q : Frac) : String :=
  if q.den == 1 then toString q.num else toString q.num ++ "/" ++ toString q.den

mutual

/-- Python `str()` of a decoded JSON value. -/
def pyStr : Json → String
  | .null => "None"
  | .bool b => if b then "True" else "False"
  | .num q => numStr q
  | .str s => s
  | .arr l => "[" ++ reprList l ++ "]"
  | .obj fs => "\x7b" ++ reprFields fs ++ "\x7d"

/-- Python `repr()` of a decoded JSON value (used for container elements;
string quote-escaping inside repr is not modelled — unused by any claim). -/
def pyRepr : Json → String
  | .null => "None"
  | .bool b => if b then "True" else "False"
  | .num q => numStr q
  | .str s => "'" ++ s ++ "'"
  | .arr l => "[" ++ reprList l ++ "]"
  | .obj fs => "\x7b" ++ reprFields fs ++ "\x7d"

/-- Comma-joined reprs of list elements. -/
def reprList : List Json → String
  | [] => ""
  | [j] => pyRepr j
  | j :: rest => pyRepr j ++ ", " ++ reprList rest

/-- Comma-joined reprs of dict items. -/
def reprFields : List (String × Json) → String
  | [] => ""
  | [kv] => "'" ++ kv.1 ++ "': " ++ pyRepr kv.2
  | kv :: rest => "'" ++ kv.1 ++ "': " ++ pyRepr kv.2 ++ ", " ++ reprFields rest

end

/-- UTF-8 encoding of a character, as byte values. -/
def utf8Bytes (c : Char) : List Nat :=
  let n := c.toNat
  if n < 128 then [n]
  else if n < 2048 then [192 + n / 64, 128 + n % 64]
  else if n < 65536 then [224 + n / 4096, 128 + n / 64 % 64, 128 + n % 64]
  else [240 + n / 262144, 128 + n / 4096 % 64, 128 + n / 64 % 64, 128 + n % 64]

/-- Bytes `urllib.parse.quote` never encodes (ALWAYS_SAFE): ASCII letters,
digits, underscore, dot, hyphen, tilde. -/
def isSafeByte (b : Nat) : Bool :=
  (65 ≤ b && b ≤ 90) || (97 ≤ b && b ≤ 122) || (48 ≤ b && b ≤ 57) ||
  b == 95 || b == 46 || b == 45 || b == 126

/-- Uppercase hex digit for a nibble. -/
def hexDigit (n : Nat) : Char :=
  if n < 10 then Char.ofNat (48 + n) else Char.ofNat (55 + n)

/-- Percent-encoding of one byte by `urllib.parse.quote(..., safe='')`. -/
def quoteByte (b : Nat) : List Char :=
  if isSafeByte b then [Char.ofNat b] else ['%', hexDigit (b / 16), hexDigit (b % 16)]

/-- `urllib.parse.quote(s, safe='')`: UTF-8 encode, percent-encode each
non-safe byte. -/
def pyQuote (cs : List Char) : List Char :=
  cs.flatMap (fun c => (utf8Bytes c).flatMap quoteByte)

/-- One character-replacement pass (`str.replace` with single-char args). -/
def replaceChar (a b : Char) (cs : List Char) : List Char :=
  cs.map (fun c => if c == a then b else c)

/-- Character-level core of `safe_uri` from the source:
`quote(str(s).replace(" ", "_").replace("/", "_").replace(":", "_"), safe='')`. -/
def safe_uri_chars (cs : List Char) : List Char :=
  pyQuote (replaceChar ':' '_' (replaceChar '/' '_' (replaceChar ' ' '_' cs)))

/-- `safe_uri` from the source, on an arbitrary value (its `str(s)` call). -/
def safe_uri (j : Json) : String := String.mk (safe_uri_chars (pyStr j).data)

/-- Escaping of one character for a SPARQL literal, equivalent to the
sequential `.replace` chain in `escape_sparql_string` (the replacement texts
are never re-matched by later passes). -/
def escChar (c : Char) : List Char :=
  if c == '\\' then ['\\', '\\']
  else if c == '"' then ['\\', '"']
  else if c == '\n' then ['\\', 'n']
  else if c == '\r' then ['\\', 'r']
  else [c]

/-- `escape_sparql_string` from the source (None maps to the empty string,
anything else is `str()`-converted then escaped). -/
def escape_sparql_string (j : Json) : String :=
  match j with
  | .null => ""
  | v => String.mk ((pyStr v).data.flatMap escChar)

-- ------------------------------------------------------------------
-- Facts about safe_uri (claim C2 territory)
-- ------------------------------------------------------------------

theorem utf8Bytes_lt_256 (c : Char) : ∀ b ∈ utf8Bytes c, b < 256 := by
  have hv : c.toNat < 1114112 := by
    have hval := c.valid
    unfold UInt32.isValidChar Nat.isValidChar at hval
    rcases hval with h | ⟨_, h2⟩
    · exact lt_trans h (by norm_num)
    · exact h2
  intro b hb
  unfold utf8Bytes at hb
  by_cases h1 : c.toNat < 128
  · simp [h1] at hb; omega
  · by_cases h2 : c.toNat < 2048
    · simp [h1, h2] at hb
      rcases hb with h | h <;> omega
    · by_cases h3 : c.toNat < 65536
      · simp [h1, h2, h3] at hb
        rcases hb with h | h | h <;> omega
      · simp [h1, h2, h3] at hb
        rcases hb with h | h | h | h <;> omega

theorem quoteByte_no_reserved :
    ∀ b : Fin 256, (quoteByte b.1).all
      (fun c => !(c == ' ' || c == '/' || c == ':')) := by decide

/-- Part of C2 that holds: `safe_uri` output never contains a raw space,
slash, or colon. -/
theorem safe_uri_chars_no_reserved (cs : List Char) :
    ∀ c ∈ safe_uri_chars cs, c ≠ ' ' ∧ c ≠ '/' ∧ c ≠ ':' := by
  intro c hc
  unfold safe_uri_chars pyQuote at hc
  rw [List.mem_flatMap] at hc
  obtain ⟨c0, _, hc0⟩ := hc
  rw [List.mem_flatMap] at hc0
  obtain ⟨b, hb, hcb⟩ := hc0
  have hblt : b < 256 := utf8Bytes_lt_256 c0 b hb
  have := quoteByte_no_reserved ⟨b, hblt⟩
  rw [List.all_eq_true] at this
  have h := this c hcb
  simp only [Bool.not_eq_true', Bool.or_eq_false_iff, beq_eq_false_iff_ne] at h
  exact ⟨h.1.1, h.1.2, h.2⟩

/-- Characters that are "already safe" inputs in the sense of the spec:
kept verbatim by quote, or one of the three characters the function maps
to underscore. -/
def preSafe (c : Char) : Bool :=
  isSafeByte c.toNat || c == ' ' || c == '/' || c == ':'

theorem safeByte_bounds : ∀ b : Fin 256, isSafeByte b.1 →
    45 ≤ b.1 ∧ b.1 ≤ 126 ∧ b.1 ≠ 32 ∧ b.1 ≠ 47 ∧ b.1 ≠ 58 := by decide

theorem isSafeByte_lt_128 {b : Nat} (h : isSafeByte b) : b < 128 := by
  unfold isSafeByte at h
  simp only [Bool.or_eq_true, decide_eq_true_eq, Bool.and_eq_true, beq_iff_eq] at h
  omega

theorem utf8Bytes_of_safe {c : Char} (h : isSafeByte c.toNat) :
    utf8Bytes c = [c.toNat] := by
  have := isSafeByte_lt_128 h
  unfold utf8Bytes
  simp [this]

theorem quoteByte_of_safe {b : Nat} (h : isSafeByte b) :
    quoteByte b = [Char.ofNat b] := by
  unfold quoteByte
  simp [h]

theorem pyQuote_of_safe {cs : List Char} (h : ∀ c ∈ cs, isSafeByte c.toNat) :
    pyQuote cs = cs := by
  induction cs with
  | nil => rfl
  | cons c rest ih =>
    have hc := h c (List.mem_cons_self c rest)
    have hrest : ∀ x ∈ rest, isSafeByte x.toNat := fun x hx => h x (List.mem_cons_of_mem c hx)
    unfold pyQuote
    simp only [List.flatMap_cons]
    rw [utf8Bytes_of_safe hc]
    simp only [List.flatMap_cons, List.flatMap_nil, List.append_nil]
    rw [quoteByte_of_safe hc, Char.ofNat_toNat]
    have htl : rest.flatMap (fun c => (utf8Bytes c).flatMap quoteByte) = pyQuote rest := rfl
    rw [htl, ih hrest]
    rfl

theorem safeByte_ne_reserved {c : Char} (h : isSafeByte c.toNat) :
    c ≠ ' ' ∧ c ≠ '/' ∧ c ≠ ':' := by
  refine ⟨?_, ?_, ?_⟩ <;> intro he <;> subst he <;> simp [isSafeByte] at h

theorem replace3_of_preSafe {cs : List Char} (h : ∀ c ∈ cs, preSafe c) :
    ∀ c ∈ replaceChar ':' '_' (replaceChar '/' '_' (replaceChar ' ' '_' cs)),
      isSafeByte c.toNat := by
  intro c hc
  simp only [replaceChar, List.map_map, List.mem_map, Function.comp] at hc
  obtain ⟨c0, hc0, he⟩ := hc
  have hp := h c0 hc0
  unfold preSafe at hp
  simp only [Bool.or_eq_true, beq_iff_eq] at hp
  by_cases h1 : c0 = ' '
  · subst h1; simp at he; subst he; decide
  · by_cases h2 : c0 = '/'
    · subst h2; simp at he; subst he; decide
    · by_cases h3 : c0 = ':'
      · subst h3; simp at he; subst he; decide
      · simp [h1, h2, h3] at he
        subst he
        rcases hp with ((hp | hp) | hp) | hp
        · exact hp
        · exact absurd hp h1
        · exact absurd hp h2
        · exact absurd hp h3

theorem replace3_fixes_safe {cs : List Char} (h : ∀ c ∈ cs, isSafeByte c.toNat) :
    replaceChar ':' '_' (replaceChar '/' '_' (replaceChar ' ' '_' cs)) = cs := by
  induction cs with
  | nil => rfl
  | cons c rest ih =>
    have hc := h c (List.mem_cons_self c rest)
    have hne := safeByte_ne_reserved hc
    have hrest : ∀ x ∈ rest, isSafeByte x.toNat := fun x hx => h x (List.mem_cons_of_mem c hx)
    have htail := ih hrest
    have h1 : (c == ' ') = false := by simp [hne.1]
    have h2 : (c == '/') = false := by simp [hne.2.1]
    have h3 : (c == ':') = false := by simp [hne.2.2]
    simp only [replaceChar, List.map_cons] at htail ⊢
    simp only [List.cons.injEq]
    constructor
    · simp [h1, h2, h3]
    · simpa [List.map_map, Function.comp] using htail

theorem safe_uri_chars_of_safe {cs : List Char} (h : ∀ c ∈ cs, isSafeByte c.toNat) :
    safe_uri_chars cs = cs := by
  unfold safe_uri_chars
  rw [replace3_fixes_safe h, pyQuote_of_safe h]

/-- Idempotence of `safe_uri` on already-safe inputs (the amended form of the
second half of C2). -/
theorem safe_uri_chars_idem_of_preSafe {cs : List Char} (h : ∀ c ∈ cs, preSafe c) :
    safe_uri_chars (safe_uri_chars cs) = safe_uri_chars cs := by
  have hsafe := replace3_of_preSafe h
  have h1 : safe_uri_chars cs =
      replaceChar ':' '_' (replaceChar '/' '_' (replaceChar ' ' '_' cs)) := by
    unfold safe_uri_chars
    exact pyQuote_of_safe hsafe
  rw [h1, safe_uri_chars_of_safe hsafe]

-- ------------------------------------------------------------------
-- Claim C2 (corrected)
-- ------------------------------------------------------------------

/-- C2, corrected: for every input string, `safe_uri` output contains no raw
space, slash, or colon; and `safe_uri` is idempotent on already-safe inputs
(characters kept verbatim by percent-encoding, plus the three characters
replaced by underscore). Idempotence does NOT hold for all inputs (see the
counterexample): percent-encoding re-encodes the `%` of a previous pass. -/
theorem C2_safe_uri_reserved_free_and_idem_on_safe (cs : List Char) :
    (∀ c ∈ safe_uri_chars cs, c ≠ ' ' ∧ c ≠ '/' ∧ c ≠ ':') ∧
    ((∀ c ∈ cs, preSafe c) →
      safe_uri_chars (safe_uri_chars cs) = safe_uri_chars cs) :=
  ⟨safe_uri_chars_no_reserved cs, fun h => safe_uri_chars_idem_of_preSafe h⟩

/-- Witness for C2: a concrete input containing a space, a slash and a colon
is already-safe in the amended sense; its image is reserved-free and a fixed
point of a second application. -/
theorem C2_witness :
    (∀ c ∈ safe_uri_chars (("a b/c:d").data), c ≠ ' ' ∧ c ≠ '/' ∧ c ≠ ':') ∧
    safe_uri_chars (safe_uri_chars (("a b/c:d").data)) =
      safe_uri_chars (("a b/c:d").data) :=
  ⟨(C2_safe_uri_reserved_free_and_idem_on_safe (("a b/c:d").data)).1,
   (C2_safe_uri_reserved_free_and_idem_on_safe (("a b/c:d").data)).2 (by decide)⟩

/-- Counterexample to C2 as stated: `safe_uri` is not idempotent on the
one-character input `!` — the first pass yields `%21`, the second re-encodes
the percent sign into `%2521`. -/
theorem C2_counterexample :
    safe_uri_chars ['!'] = ['%', '2', '1'] ∧
    safe_uri_chars (safe_uri_chars ['!']) = ['%', '2', '5', '2', '1'] ∧
    safe_uri_chars (safe_uri_chars ['!']) ≠ safe_uri_chars ['!'] := by
  refine ⟨by decide, by decide, by decide⟩

-- ------------------------------------------------------------------
-- Model of json.loads (standard-library collaborator)
-- ------------------------------------------------------------------

/-- JSON whitespace (RFC 8259), as skipped by Python's json decoder. -/
def isJsonWS (c : Char) : Bool := c == ' ' || c == '\t' || c == '\n' || c == '\r'

/-- Skip JSON whitespace. -/
def jskip (cs : List Char) : List Char := cs.dropWhile isJsonWS

/-- Value of a hex digit character. -/
def hexVal (c : Char) : Option Nat :=
  if '0' ≤ c ∧ c ≤ '9' then some (c.toNat - 48)
  else if 'a' ≤ c ∧ c ≤ 'f' then some (c.toNat - 87)
  else if 'A' ≤ c ∧ c ≤ 'F' then some (c.toNat - 55)
  else none

/-- Body of a JSON string after the opening quote; returns decoded characters
and the remainder after the closing quote. Surrogate-pair recombination for
`[backslash]u` escapes is not modelled (no claim uses them). -/
def parseStrBody : Nat → List Char → Option (List Char × List Char)
  | 0, _ => none
  | _, [] => none
  | fuel+1, c :: rest =>
    if c == '"' then some ([], rest)
    else if c == '\\' then
      match rest with
      | [] => none
      | e :: rest2 =>
        if e == '"' || e == '\\' || e == '/' then
          match parseStrBody fuel rest2 with
          | some (s, r) => some (e :: s, r)
          | none => none
        else if e == 'b' then
          match parseStrBody fuel rest2 with
          | some (s, r) => some (Char.ofNat 8 :: s, r)
          | none => none
        else if e == 'f' then
          match parseStrBody fuel rest2 with
          | some (s, r) => some (Char.ofNat 12 :: s, r)
          | none => none
        else if e == 'n' then
          match parseStrBody fuel rest2 with
          | some (s, r) => some ('\n' :: s, r)
          | none => none
        else if e == 'r' then
          match parseStrBody fuel rest2 with
          | some (s, r) => some ('\r' :: s, r)
          | none => none
        else if e == 't' then
          match parseStrBody fuel rest2 with
          | some (s, r) => some ('\t' :: s, r)
          | none => none
        else if e == 'u' then
          match rest2 with
          | h1 :: h2 :: h3 :: h4 :: rest3 =>
            match hexVal h1, hexVal h2, hexVal h3, hexVal h4 with
            | some a, some b, some c2, some d =>
              match parseStrBody fuel rest3 with
              | some (s, r) => some (Char.ofNat (((a * 16 + b) * 16 + c2) * 16 + d) :: s, r)
              | none => none
            | _, _, _, _ => none
          | _ => none
        else none
    else if c.toNat < 32 then none
    else
      match parseStrBody fuel rest with
      | some (s, r) => some (c :: s, r)
      | none => none

/-- Longest digit run at the front. -/
def spanDigits (cs : List Char) : List Char × List Char :=
  (cs.takeWhile (fun c => c.isDigit), cs.dropWhile (fun c => c.isDigit))

/-- Numeric value of a digit run. -/
def digitsToNat (ds : List Char) : Nat := ds.foldl (fun a c => a * 10 + (c.toNat - 48)) 0

/-- Optional fraction part `.digits` of a JSON number. -/
def parseFrac : List Char → Option (List Char × List Char)
  | [] => some ([], [])
  | d :: rest =>
    if d == '.' then
      let p := spanDigits rest
      if p.1.isEmpty then none else some (p.1, p.2)
    else some ([], d :: rest)

/-- Optional exponent part of a JSON number: (negative?, digits, rest). -/
def parseExp : List Char → Option (Bool × List Char × List Char)
  | [] => some (false, [], [])
  | e :: rest =>
    if e == 'e' || e == 'E' then
      let p :=
        match rest with
        | s :: r2 =>
          if s == '-' then (true, r2)
          else if s == '+' then (false, r2) else (false, rest)
        | [] => (false, rest)
      let q := spanDigits p.2
      if q.1.isEmpty then none else some (p.1, q.1, q.2)
    else some (false, [], e :: rest)

/-- A JSON number per RFC 8259, decoded to an exact fraction. -/
def parseNum (cs : List Char) : Option (Frac × List Char) :=
  let p :=
    match cs with
    | c :: rest => if c == '-' then (true, rest) else (false, cs)
    | [] => (false, cs)
  match spanDigits p.2 with
  | ([], _) => none
  | (ids, r1) =>
    if ids.length > 1 && (ids.head? == some '0') then none
    else
      match parseFrac r1 with
      | none => none
      | some (fds, r2) =>
        match parseExp r2 with
        | none => none
        | some (eneg, eds, r3) =>
          let mant : Frac :=
            Frac.add (Frac.ofInt (digitsToNat ids))
              (Frac.div (Frac.ofInt (digitsToNat fds)) (Frac.ofInt ((10 : Int) ^ fds.length)))
          let mant := if p.1 then Frac.neg mant else mant
          let scale : Frac := Frac.ofInt ((10 : Int) ^ (digitsToNat eds))
          let v :=
            if eds.isEmpty then mant
            else if eneg then Frac.div mant scale else Frac.mul mant scale
          some (v, r3)

/-- Insert or overwrite a key in a decoded object, Python-dict style (the
original position of a repeated key is kept, its value replaced). -/
def upsert (fs : List (String × Json)) (k : String) (v : Json) : List (String × Json) :=
  if fs.any (fun kv => kv.1 == k) then
    fs.map (fun kv => if kv.1 == k then (k, v) else kv)
  else fs ++ [(k, v)]

mutual

/-- A JSON value (fuelled recursive-descent, mirror of Python json.loads). -/
def parseVal : Nat → List Char → Option (Json × List Char)
  | 0, _ => none
  | fuel+1, cs =>
    match jskip cs with
    | [] => none
    | c :: rest =>
      if c == '"' then
        match parseStrBody (fuel+1) rest with
        | some (s, r) => some (Json.str (String.mk s), r)
        | none => none
      else if c == 'n' then
        if (['u', 'l', 'l']).isPrefixOf rest then some (Json.null, rest.drop 3) else none
      else if c == 't' then
        if (['r', 'u', 'e']).isPrefixOf rest then some (Json.bool true, rest.drop 3) else none
      else if c == 'f' then
        if (['a', 'l', 's', 'e']).isPrefixOf rest then some (Json.bool false, rest.drop 4) else none
      else if c == '-' || c.isDigit then
        match parseNum (c :: rest) with
        | some (q, r) => some (Json.num q, r)
        | none => none
      else if c == '[' then
        match jskip rest with
        | ']' :: r2 => some (Json.arr [], r2)
        | r2 => parseArrItems fuel r2 []
      else if c == obrace then
        match jskip rest with
        | r2 =>
          match r2 with
          | d :: r3 => if d == cbrace then some (Json.obj [], r3) else parseObjItems fuel r2 []
          | [] => none
      else none

/-- Comma-separated array elements up to the closing bracket. -/
def parseArrItems : Nat → List Char → List Json → Option (Json × List Char)
  | 0, _, _ => none
  | fuel+1, cs, acc =>
    match parseVal fuel cs with
    | none => none
    | some (v, r) =>
      match jskip r with
      | ',' :: r2 => parseArrItems fuel r2 (acc ++ [v])
      | ']' :: r2 => some (Json.arr (acc ++ [v]), r2)
      | _ => none

/-- Comma-separated object members up to the closing brace. -/
def parseObjItems : Nat → List Char → List (String × Json) → Option (Json × List Char)
  | 0, _, _ => none
  | fuel+1, cs, acc =>
    match jskip cs with
    | k :: r1 =>
      if k == '"' then
        match parseStrBody (fuel+1) r1 with
        | some (ks, r2) =>
          match jskip r2 with
          | ':' :: r3 =>
            match parseVal fuel r3 with
            | some (v, r4) =>
              let acc2 := upsert acc (String.mk ks) v
              match jskip r4 with
              | ',' :: r5 => parseObjItems fuel r5 acc2
              | d :: r5 =>
                if d == cbrace then some (Json.obj acc2, r5) else none
              | [] => none
            | none => none
          | _ => none
        | none => none
      else none
    | [] => none

end

/-- Model of `json.loads` on text: parse one value, require only whitespace
after it. The nonstandard `NaN`/`Infinity` extensions are not modelled. -/
def json_loads (cs : List Char) : Option Json :=
  match parseVal (cs.length + 16) cs with
  | none => none
  | some (v, rest) => if (jskip rest).isEmpty then some v else none

example : json_loads (("\x7b\"id\": \"a\"\x7d").data) =
    some (Json.obj [("id", Json.str "a")]) := by rfl

example : json_loads (("\x7b\"a\" 1\x7d").data) = none := by rfl

example : json_loads (("[1, 2]").data) =
    some (Json.arr [Json.num ⟨1, 1⟩, Json.num ⟨2, 1⟩]) := by rfl

example : json_loads (("-12.5e1").data) = some (Json.num ⟨-1250, 10⟩) := by rfl

example : Frac.toRat ⟨-1250, 10⟩ = -125 := by norm_num [Frac.toRat]

-- ------------------------------------------------------------------
-- Percent-formatting of scores, and ontology constants
-- ------------------------------------------------------------------

/-- Round to the nearest integer, ties to even (for positive denominator).
Models Python fixed-point formatting of the exact value. -/
def Frac.roundHalfEven (f : Frac) : Int :=
  let fl := f.floor
  let r2 := 2 * (f.num - fl * f.den)
  if r2 < f.den then fl
  else if f.den < r2 then fl + 1
  else if fl % 2 == 0 then fl else fl + 1

/-- Python `f"{x:.Nf}"` on the exact value of `x` (sign taken from the value,
so a negative value rounding to zero keeps its minus sign, as in Python). -/
def fmtFixed (prec : Nat) (f : Frac) : String :=
  let n := Frac.roundHalfEven (Frac.mul f (Frac.ofInt ((10 : Int) ^ prec)))
  let d0 := toString n.natAbs
  let d :=
    if d0.length < prec + 1 then
      String.mk (List.replicate (prec + 1 - d0.length) '0') ++ d0
    else d0
  let sign := if f.num < 0 then "-" else ""
  sign ++ d.take (d.length - prec) ++ "." ++ d.drop (d.length - prec)

example : fmtFixed 2 ⟨7, 10⟩ = "0.70" := by rfl

example : fmtFixed 2 ⟨17, 20⟩ = "0.85" := by rfl

example : fmtFixed 3 ⟨0, 1⟩ = "0.000" := by rfl

example : fmtFixed 3 ⟨-25000, 10000⟩ = "-2.500" := by rfl

/-- Ontology namespace constant from the source. -/
def NAMESPACE : String := "http://knowledge.graph/ontology/narrative#"

/-- Base URI constant from the source. -/
def BASE_URI : String := "http://knowledge.graph/data/"

-- ------------------------------------------------------------------
-- Entity triple generators
-- ------------------------------------------------------------------

/-- `generate_person_triples` from the source. -/
def generate_person_triples (creator_id creator_name : Json) : List String :=
  let person_uri := "<" ++ BASE_URI ++ "person/" ++ pyStr creator_id ++ ">"
  [ person_uri ++ " a <" ++ NAMESPACE ++ "Person> ."
  , person_uri ++ " <http://www.w3.org/2000/01/rdf-schema#label> \"" ++
      escape_sparql_string creator_name ++ "\" ."
  , person_uri ++ " <" ++ NAMESPACE ++ "knownAs> \"" ++
      escape_sparql_string creator_name ++ "\" ." ]

/-- `generate_org_triples` from the source. -/
def generate_org_triples (org_id org_name : Json) (org_type : String) : List String :=
  let org_uri := "<" ++ BASE_URI ++ "org/" ++ pyStr org_id ++ ">"
  [ org_uri ++ " a <" ++ NAMESPACE ++ "Org> ."
  , org_uri ++ " <http://www.w3.org/2000/01/rdf-schema#label> \"" ++
      escape_sparql_string org_name ++ "\" ."
  , org_uri ++ " <" ++ NAMESPACE ++ "legalName> \"" ++
      escape_sparql_string org_name ++ "\" ."
  , org_uri ++ " <" ++ NAMESPACE ++ "orgType> \"" ++ org_type ++ "\" ." ]

/-- ASCII lower-casing (model of `str.lower` on the program's inputs). -/
def lowerStr (s : String) : String := String.mk (s.data.map Char.toLower)

/-- Substring search helper. -/
def strInAux (n : List Char) : List Char → Bool
  | [] => n.isEmpty
  | c :: rest => n.isPrefixOf (c :: rest) || strInAux n rest

/-- Python `needle in hay` on strings (substring containment). -/
def strIn (needle hay : String) : Bool := strInAux needle.data hay.data

/-- Python `any(word in hay for word in ws)`. -/
def anyKw (ws : List String) (hay : String) : Bool := ws.any (fun w => strIn w hay)

/-- Python `d.get(key, "").lower()`: empty for a missing key; errors (none)
when the present value is not a string. -/
def getLowerStr (sd : Json) (key : String) : Option String :=
  match pyGet sd key with
  | none => none
  | some none => some ""
  | some (some (.str s)) => some (lowerStr s)
  | some (some _) => none

/-- The lowered genre-name list built at the top of `infer_tone`. -/
def toneGenres (sd : Json) : Option (List String) := do
  let g ← pyGetD sd "genres" (Json.arr [])
  let items ← pyIter g
  items.mapM (fun it => getLowerStr it "name")

/-- Dark/gritty keywords from `infer_tone`. -/
def darkWords : List String := ["dark", "noir", "grim", "gritty", "shadow"]

/-- Comedic keywords from `infer_tone`. -/
def comedyWords : List String := ["funny", "comedy", "humor", "laugh", "silly"]

/-- Wholesome keywords from `infer_tone`. -/
def wholesomeWords : List String := ["adventure", "fun", "family", "friends"]

/-- Horror keywords from `infer_tone`. -/
def horrorWords : List String := ["horror", "terror", "fear"]

/-- `infer_tone` from the source. -/
def infer_tone (series_data : Json) : Option String := do
  let name ← getLowerStr series_data "name"
  let desc ← getLowerStr series_data "desc"
  let genres ← toneGenres series_data
  let hay := name ++ desc
  if anyKw darkWords hay then pure ("Dark")
  else if anyKw comedyWords hay then pure ("Comedic")
  else if anyKw wholesomeWords hay then pure ("Wholesome")
  else if genres.contains "horror" || anyKw horrorWords hay then pure ("Dark")
  else pure ("Dramatic")

/-- The genre-to-theme mapping of `generate_series_triples`, in the source's
insertion order. -/
def genreToTheme : List (String × String) :=
  [("superhero", "Heroism"), ("fantasy", "Magic"), ("sci-fi", "Technology"),
   ("horror", "Survival"), ("crime", "Justice"), ("romance", "Love")]

/-- The four ranking-score triples of `generate_series_triples` (source lines
155–179), in emission order, with the exact formulas of the source:
years_active = max(1, 2025 - year_began);
popularity = min(1, (issue_count/500) * (years_active/20));
recency = max(0, 1 - (2025 - year_began)/50);
trending = min(1, recency * (issue_count/100));
completion = 0.85 if year_ended is truthy else 0.7;
engagement = min(1, (popularity + trending)/2). -/
def ranking_triples (work_uri : String) (issue_count year_began : Frac)
    (has_year_ended : Bool) : List String :=
  let years_active := pymax (Frac.ofInt 1) (Frac.sub (Frac.ofInt 2025) year_began)
  let popularity := pymin (Frac.ofInt 1)
    (Frac.mul (Frac.div issue_count (Frac.ofInt 500)) (Frac.div years_active (Frac.ofInt 20)))
  let recency_factor := pymax (Frac.ofInt 0)
    (Frac.sub (Frac.ofInt 1) (Frac.div (Frac.sub (Frac.ofInt 2025) year_began) (Frac.ofInt 50)))
  let trending := pymin (Frac.ofInt 1)
    (Frac.mul recency_factor (Frac.div issue_count (Frac.ofInt 100)))
  let completion_rate : Frac := if has_year_ended then ⟨17, 20⟩ else ⟨7, 10⟩
  let engagement := pymin (Frac.ofInt 1) (Frac.div (Frac.add popularity trending) (Frac.ofInt 2))
  [ work_uri ++ " <" ++ NAMESPACE ++ "popularityScore> \"" ++ fmtFixed 3 popularity ++
      "\"^^<http://www.w3.org/2001/XMLSchema#float> ."
  , work_uri ++ " <" ++ NAMESPACE ++ "trendingScore> \"" ++ fmtFixed 3 trending ++
      "\"^^<http://www.w3.org/2001/XMLSchema#float> ."
  , work_uri ++ " <" ++ NAMESPACE ++ "completionRate> \"" ++ fmtFixed 2 completion_rate ++
      "\"^^<http://www.w3.org/2001/XMLSchema#float> ."
  , work_uri ++ " <" ++ NAMESPACE ++ "engagementScore> \"" ++ fmtFixed 3 engagement ++
      "\"^^<http://www.w3.org/2001/XMLSchema#float> ." ]


/-- Optional scalar-field triples of `generate_series_triples` (source lines
108–127): sortName, volume, yearBegan, yearEnded, issueCount. -/
def series_scalar_triples (work_uri : String) (series_data : Json) : Option (List String) := do
  let sortJ ← pyGetD series_data "sort_name" Json.null
  let tSort := if truthy sortJ then
      [work_uri ++ " <" ++ NAMESPACE ++ "sortName> \"" ++ escape_sparql_string sortJ ++ "\" ."]
    else []
  let volJ ← pyGetD series_data "volume" Json.null
  let tVol := if truthy volJ then
      [work_uri ++ " <" ++ NAMESPACE ++ "volume> \"" ++ pyStr volJ ++
        "\"^^<http://www.w3.org/2001/XMLSchema#int> ."]
    else []
  let ybJ0 ← pyGetD series_data "year_began" Json.null
  let tYB := if truthy ybJ0 then
      [work_uri ++ " <" ++ NAMESPACE ++ "yearBegan> \"" ++ pyStr ybJ0 ++
        "\"^^<http://www.w3.org/2001/XMLSchema#int> ."]
    else []
  let yeJ0 ← pyGetD series_data "year_ended" Json.null
  let tYE := if truthy yeJ0 then
      [work_uri ++ " <" ++ NAMESPACE ++ "yearEnded> \"" ++ pyStr yeJ0 ++
        "\"^^<http://www.w3.org/2001/XMLSchema#int> ."]
    else []
  let icJ0 ← pyGetD series_data "count_of_issues" Json.null
  let tIC := if truthy icJ0 then
      [work_uri ++ " <" ++ NAMESPACE ++ "issueCount> \"" ++ pyStr icJ0 ++
        "\"^^<http://www.w3.org/2001/XMLSchema#int> ."]
    else []
  pure (tSort ++ tVol ++ tYB ++ tYE ++ tIC)

/-- The seriesType triple of `generate_series_triples` (source lines 129–130). -/
def series_type_triples (work_uri : String) (series_data : Json) : Option (List String) :=
  if hasKey series_data "series_type" then do
    let st ← pyIndex series_data "series_type"
    if truthy st then do
      let stn ← pyIndex st "name"
      pure [work_uri ++ " <" ++ NAMESPACE ++ "seriesType> \"" ++
        escape_sparql_string stn ++ "\" ."]
    else pure []
  else pure []

/-- The genre triples of `generate_series_triples` (source lines 133–143). -/
def series_genre_triples (work_uri : String) (series_data : Json) : Option (List String) :=
  if hasKey series_data "genres" then do
    let gsJ ← pyIndex series_data "genres"
    let items ← pyIter gsJ
    let ls ← items.mapM (fun genre => do
      let gn ← pyIndex genre "name"
      let genre_uri := "<" ++ BASE_URI ++ "genre/" ++ safe_uri gn ++ ">"
      pure [ genre_uri ++ " a <" ++ NAMESPACE ++ "Genre> ."
           , genre_uri ++ " <http://www.w3.org/2000/01/rdf-schema#label> \"" ++
               escape_sparql_string gn ++ "\" ."
           , work_uri ++ " <" ++ NAMESPACE ++ "hasGenre> " ++ genre_uri ++ " ."
           , work_uri ++ " <" ++ NAMESPACE ++ "genre> \"" ++
               escape_sparql_string gn ++ "\" ." ])
    pure ls.flatten
  else pure []

/-- The publishedBy triple of `generate_series_triples` (source lines 146–148). -/
def series_publisher_triples (work_uri : String) (series_data : Json) : Option (List String) := do
  let pubJ ← pyGetD series_data "publisher" Json.null
  if truthy pubJ then do
    let pid ← pyIndex pubJ "id"
    pure [work_uri ++ " <" ++ NAMESPACE ++ "publishedBy> <" ++ BASE_URI ++ "org/" ++
      pyStr pid ++ "> ."]
  else pure []

/-- The synopsis triple of `generate_series_triples` (source lines 151–153). -/
def series_synopsis_triples (work_uri : String) (series_data : Json) : Option (List String) := do
  let descJ ← pyGetD series_data "desc" Json.null
  if truthy descJ then do
    let d1 ← pyIndex series_data "desc"
    let sliced ← pySlice d1 1000
    pure [work_uri ++ " <" ++ NAMESPACE ++ "synopsis> \"" ++
      escape_sparql_string sliced ++ "\" ."]
  else pure []

/-- The score inputs of `generate_series_triples` (source lines 157–158 and
173): issue_count defaulting to 1, year_began defaulting to 2000, and
truthiness of year_ended. -/
def series_score_inputs (series_data : Json) : Option (Frac × Frac × Bool) := do
  let icJ ← pyGetD series_data "count_of_issues" (Json.num (Frac.ofInt 1))
  let ybJ ← pyGetD series_data "year_began" (Json.num (Frac.ofInt 2000))
  let ic ← jnum icJ
  let yb ← jnum ybJ
  let yeT ← pyGetD series_data "year_ended" Json.null
  pure (ic, yb, truthy yeT)

/-- The tone triples of `generate_series_triples` (source lines 182–186). -/
def series_tone_triples (work_uri : String) (series_data : Json) : Option (List String) := do
  let tone ← infer_tone series_data
  let tone_uri := "<" ++ BASE_URI ++ "tone/" ++ safe_uri (Json.str tone) ++ ">"
  pure [ tone_uri ++ " a <" ++ NAMESPACE ++ "Tone> ."
       , tone_uri ++ " <http://www.w3.org/2000/01/rdf-schema#label> \"" ++ tone ++ "\" ."
       , work_uri ++ " <" ++ NAMESPACE ++ "hasTone> " ++ tone_uri ++ " ." ]

/-- The theme triples of `generate_series_triples` (source lines 198–205). -/
def series_theme_triples (work_uri : String) (series_data : Json) : Option (List String) := do
  let gensJ ← pyGetD series_data "genres" (Json.arr [])
  let gitems ← pyIter gensJ
  let thLists ← gitems.mapM (fun genre => do
    let gl ← getLowerStr genre "name"
    pure (genreToTheme.flatMap (fun kv =>
      if strIn kv.1 gl then
        [ "<" ++ BASE_URI ++ "theme/" ++ safe_uri (Json.str kv.2) ++ "> a <" ++
            NAMESPACE ++ "Theme> ."
        , "<" ++ BASE_URI ++ "theme/" ++ safe_uri (Json.str kv.2) ++
            "> <http://www.w3.org/2000/01/rdf-schema#label> \"" ++ kv.2 ++ "\" ."
        , work_uri ++ " <" ++ NAMESPACE ++ "hasTheme> <" ++ BASE_URI ++ "theme/" ++
            safe_uri (Json.str kv.2) ++ "> ." ]
      else [])))
  pure thLists.flatten

/-- `generate_series_triples` from the source (fallible: raises on a missing
`name`, a malformed `series_type`/`genres` entry, or non-numeric score
inputs). The body is split across the helper functions above, in the
source's emission order. -/
def generate_series_triples (series_id : Json) (series_data : Json) : Option (List String) := do
  let work_uri := "<" ++ BASE_URI ++ "work/series_" ++ pyStr series_id ++ ">"
  let nameJ ← pyIndex series_data "name"
  let t0 := [ work_uri ++ " a <" ++ NAMESPACE ++ "StoryWork> ."
            , work_uri ++ " <http://www.w3.org/2000/01/rdf-schema#label> \"" ++
                escape_sparql_string nameJ ++ "\" ."
            , work_uri ++ " <" ++ NAMESPACE ++ "seriesName> \"" ++
                escape_sparql_string nameJ ++ "\" ." ]
  let tScal ← series_scalar_triples work_uri series_data
  let tST ← series_type_triples work_uri series_data
  let tGen ← series_genre_triples work_uri series_data
  let tPub ← series_publisher_triples work_uri series_data
  let tDesc ← series_synopsis_triples work_uri series_data
  let si ← series_score_inputs series_data
  let tRank := ranking_triples work_uri si.1 si.2.1 si.2.2
  let tTone ← series_tone_triples work_uri series_data
  let tTheme ← series_theme_triples work_uri series_data
  pure (t0 ++ tScal ++ tST ++ tGen ++ tPub ++ tDesc ++ tRank ++ tTone ++ tTheme)
/-- `infer_format_class` from the source. -/
def infer_format_class (issue_data : Json) : Option String := do
  let seriesJ ← pyGetD issue_data "series" (Json.obj [])
  let stJ ← pyGetD seriesJ "series_type" (Json.obj [])
  let series_type ← getLowerStr stJ "name"
  let pcJ ← pyGetD issue_data "page_count" Json.null
  let page_count := if truthy pcJ then pcJ else Json.num (Frac.ofInt 0)
  if strIn "trade paperback" series_type || strIn "tpb" series_type then
    pure ("TradePaperback")
  else if strIn "hardcover" series_type || strIn "hc" series_type then
    pure ("Hardcover")
  else if strIn "digital" series_type then pure ("DigitalChapter")
  else if strIn "graphic novel" series_type then pure ("GraphicNovel")
  else if truthy page_count then do
    let pc ← jnum page_count
    if Frac.blt (Frac.ofInt 100) pc then pure ("CollectedEdition")
    else pure ("SingleIssue")
  else pure ("SingleIssue")


/-- Optional scalar-field triples of `generate_issue_triples`, first half
(source lines 237–259): label+issueTitle, issueNumber, coverDate, storeDate,
msrp, pageCount. -/
def issue_scalar_triples1 (expr_uri : String) (issue_data : Json) : Option (List String) := do
  let inJ ← pyGetD issue_data "issue_name" Json.null
  let tName := if truthy inJ then
      [ expr_uri ++ " <http://www.w3.org/2000/01/rdf-schema#label> \"" ++
          escape_sparql_string inJ ++ "\" ."
      , expr_uri ++ " <" ++ NAMESPACE ++ "issueTitle> \"" ++
          escape_sparql_string inJ ++ "\" ." ]
    else []
  let numJ ← pyGetD issue_data "number" Json.null
  let tNum := if truthy numJ then
      [expr_uri ++ " <" ++ NAMESPACE ++ "issueNumber> \"" ++
        escape_sparql_string numJ ++ "\" ."]
    else []
  let cdJ ← pyGetD issue_data "cover_date" Json.null
  let tCD := if truthy cdJ then
      [expr_uri ++ " <" ++ NAMESPACE ++ "coverDate> \"" ++ pyStr cdJ ++
        "\"^^<http://www.w3.org/2001/XMLSchema#date> ."]
    else []
  let sdJ ← pyGetD issue_data "store_date" Json.null
  let tSD := if truthy sdJ then
      [expr_uri ++ " <" ++ NAMESPACE ++ "storeDate> \"" ++ pyStr sdJ ++
        "\"^^<http://www.w3.org/2001/XMLSchema#date> ."]
    else []
  let prJ ← pyGetD issue_data "price" Json.null
  let tPr := if truthy prJ then
      [expr_uri ++ " <" ++ NAMESPACE ++ "msrp> \"" ++ pyStr prJ ++
        "\"^^<http://www.w3.org/2001/XMLSchema#decimal> ."]
    else []
  let pcJ ← pyGetD issue_data "page_count" Json.null
  let tPC := if truthy pcJ then
      [expr_uri ++ " <" ++ NAMESPACE ++ "pageCount> \"" ++ pyStr pcJ ++
        "\"^^<http://www.w3.org/2001/XMLSchema#int> ."]
    else []
  pure (tName ++ tNum ++ tCD ++ tSD ++ tPr ++ tPC)

/-- Optional scalar-field triples of `generate_issue_triples`, second half
(source lines 262–280): description, sku, upc, coverImage, isbn. -/
def issue_scalar_triples2 (expr_uri : String) (issue_data : Json) : Option (List String) := do
  let deJ ← pyGetD issue_data "desc" Json.null
  let tDesc ← (if truthy deJ then do
      let d1 ← pyIndex issue_data "desc"
      let sliced ← pySlice d1 1000
      pure [expr_uri ++ " <" ++ NAMESPACE ++ "description> \"" ++
        escape_sparql_string sliced ++ "\" ."]
    else pure [])
  let skJ ← pyGetD issue_data "sku" Json.null
  let tSku := if truthy skJ then
      [expr_uri ++ " <" ++ NAMESPACE ++ "sku> \"" ++ escape_sparql_string skJ ++ "\" ."]
    else []
  let upJ ← pyGetD issue_data "upc" Json.null
  let tUpc := if truthy upJ then
      [expr_uri ++ " <" ++ NAMESPACE ++ "upc> \"" ++ escape_sparql_string upJ ++ "\" ."]
    else []
  let imJ ← pyGetD issue_data "image" Json.null
  let tIm := if truthy imJ then
      [expr_uri ++ " <" ++ NAMESPACE ++ "coverImage> \"" ++ escape_sparql_string imJ ++
        "\"^^<http://www.w3.org/2001/XMLSchema#anyURI> ."]
    else []
  let isJ ← pyGetD issue_data "isbn" Json.null
  let tIsbn := if truthy isJ then
      [expr_uri ++ " <" ++ NAMESPACE ++ "isbn> \"" ++ escape_sparql_string isJ ++ "\" ."]
    else []
  pure (tDesc ++ tSku ++ tUpc ++ tIm ++ tIsbn)

/-- Series- and publisher-link triples of `generate_issue_triples` (source
lines 283–291). -/
def issue_link_triples (expr_uri : String) (issue_data : Json) : Option (List String) := do
  let tSer ← (if hasKey issue_data "series" then do
      let ser ← pyIndex issue_data "series"
      if truthy ser then do
        let sid ← pyIndex ser "id"
        let work_uri := "<" ++ BASE_URI ++ "work/series_" ++ pyStr sid ++ ">"
        pure [ expr_uri ++ " <" ++ NAMESPACE ++ "expressionOf> " ++ work_uri ++ " ."
             , work_uri ++ " <" ++ NAMESPACE ++ "hasExpression> " ++ expr_uri ++ " ." ]
      else pure []
    else pure [])
  let tPub ← (if hasKey issue_data "publisher" then do
      let pub ← pyIndex issue_data "publisher"
      if truthy pub then do
        let pid ← pyIndex pub "id"
        pure [expr_uri ++ " <" ++ NAMESPACE ++ "publishedBy> <" ++ BASE_URI ++ "org/" ++
          pyStr pid ++ "> ."]
      else pure []
    else pure [])
  pure (tSer ++ tPub)

/-- Manifestation and format-class triples of `generate_issue_triples`
(source lines 295–305). -/
def issue_manif_triples (expr_uri manif_uri : String) (issue_data : Json) :
    Option (List String) := do
  let format_class ← infer_format_class issue_data
  let format_uri := "<" ++ BASE_URI ++ "format/" ++ safe_uri (Json.str format_class) ++ ">"
  pure [ manif_uri ++ " a <" ++ NAMESPACE ++ "Manifestation> ."
       , expr_uri ++ " <" ++ NAMESPACE ++ "hasManifestation> " ++ manif_uri ++ " ."
       , manif_uri ++ " <" ++ NAMESPACE ++ "manifestationOf> " ++ expr_uri ++ " ."
       , format_uri ++ " a <" ++ NAMESPACE ++ "FormatClass> ."
       , format_uri ++ " <http://www.w3.org/2000/01/rdf-schema#label> \"" ++
           format_class ++ "\" ."
       , manif_uri ++ " <" ++ NAMESPACE ++ "hasFormatClass> " ++ format_uri ++ " ." ]

/-- `generate_issue_triples` from the source (fallible: raises on a missing
`id` or malformed nested fields). -/
def generate_issue_triples (issue_data : Json) : Option (List String) := do
  let issue_id ← pyIndex issue_data "id"
  let expr_uri := "<" ++ BASE_URI ++ "expression/issue_" ++ pyStr issue_id ++ ">"
  let t0 := [expr_uri ++ " a <" ++ NAMESPACE ++ "StoryExpression> ."]
  let t1 ← issue_scalar_triples1 expr_uri issue_data
  let t2 ← issue_scalar_triples2 expr_uri issue_data
  let t3 ← issue_link_triples expr_uri issue_data
  let manif_uri := "<" ++ BASE_URI ++ "manifestation/issue_" ++ pyStr issue_id ++ ">"
  let t4 ← issue_manif_triples expr_uri manif_uri issue_data
  pure (t0 ++ t1 ++ t2 ++ t3 ++ t4)

/-- `generate_credit_triples` from the source. -/
def generate_credit_triples (issue_id : Json) (credit : Json) (credit_index : Nat) :
    Option (List String) := do
  let cid ← pyIndex credit "id"
  let credit_uri := "<" ++ BASE_URI ++ "credit/" ++ pyStr issue_id ++ "_" ++ pyStr cid ++
    "_" ++ toString credit_index ++ ">"
  let person_uri := "<" ++ BASE_URI ++ "person/" ++ pyStr cid ++ ">"
  let expr_uri := "<" ++ BASE_URI ++ "expression/issue_" ++ pyStr issue_id ++ ">"
  let creatorJ ← pyIndex credit "creator"
  let t0 := [ credit_uri ++ " a <" ++ NAMESPACE ++ "CreditRelationship> ."
            , person_uri ++ " <" ++ NAMESPACE ++ "hasCreditRelationship> " ++ credit_uri ++ " ."
            , credit_uri ++ " <" ++ NAMESPACE ++ "creditsExpression> " ++ expr_uri ++ " ."
            , credit_uri ++ " <" ++ NAMESPACE ++ "creditedName> \"" ++
                escape_sparql_string creatorJ ++ "\" ."
            , credit_uri ++ " <" ++ NAMESPACE ++ "billingOrder> \"" ++
                toString credit_index ++ "\"^^<http://www.w3.org/2001/XMLSchema#int> ." ]
  let rolesJ ← pyGetD credit "role" (Json.arr [])
  let roles ← pyIter rolesJ
  let rls ← roles.mapM (fun role_data => do
      let rn ← pyIndex role_data "name"
      pure [ credit_uri ++ " <" ++ NAMESPACE ++ "creditRole> <" ++ NAMESPACE ++
               safe_uri rn ++ "> ."
           , credit_uri ++ " <" ++ BASE_URI ++ "roleName> \"" ++
               escape_sparql_string rn ++ "\" ." ])
  pure (t0 ++ rls.flatten)

/-- Optional scalar-field triples of `generate_character_triples` (source
lines 348–374): realName, aliases, origin, powers, bio. -/
def character_scalar_triples (char_uri : String) (char_data : Json) : Option (List String) := do
  let rnJ ← pyGetD char_data "real_name" Json.null
  let tRN := if truthy rnJ then
      [char_uri ++ " <" ++ NAMESPACE ++ "realName> \"" ++ escape_sparql_string rnJ ++ "\" ."]
    else []
  let alJ ← pyGetD char_data "aliases" Json.null
  let tAl := if truthy alJ then
      (match alJ with
       | .str s => [char_uri ++ " <" ++ NAMESPACE ++ "aliases> \"" ++
           escape_sparql_string (Json.str s) ++ "\" ."]
       | .arr l => l.map (fun al => char_uri ++ " <" ++ NAMESPACE ++ "aliases> \"" ++
           escape_sparql_string al ++ "\" .")
       | _ => [])
    else []
  let orJ ← pyGetD char_data "origin" Json.null
  let tOr ← (if truthy orJ then do
      let o1 ← pyIndex char_data "origin"
      let sl ← pySlice o1 500
      pure [char_uri ++ " <" ++ NAMESPACE ++ "origin> \"" ++ escape_sparql_string sl ++ "\" ."]
    else pure [])
  let pwJ ← pyGetD char_data "powers" Json.null
  let tPw ← (if truthy pwJ then do
      let p1 ← pyIndex char_data "powers"
      let sl ← pySlice p1 1000
      pure [char_uri ++ " <" ++ NAMESPACE ++ "powers> \"" ++ escape_sparql_string sl ++ "\" ."]
    else pure [])
  let deJ ← pyGetD char_data "desc" Json.null
  let tBio ← (if truthy deJ then do
      let d1 ← pyIndex char_data "desc"
      let sl ← pySlice d1 1000
      pure [char_uri ++ " <" ++ NAMESPACE ++ "bio> \"" ++ escape_sparql_string sl ++ "\" ."]
    else pure [])
  pure (tRN ++ tAl ++ tOr ++ tPw ++ tBio)

/-- First-appearance and franchise triples of `generate_character_triples`
(source lines 377–386). -/
def character_link_triples (char_uri : String) (char_data : Json)
    (series_id issue_id : Json) : Option (List String) := do
  let faJ ← pyGetD char_data "first_appeared_in_issue" Json.null
  let tFA ← (if truthy issue_id && truthy faJ then do
      let faid ← pyGetD faJ "id" Json.null
      if pyStr faid == pyStr issue_id then
        pure [ char_uri ++ " <" ++ NAMESPACE ++ "firstAppearanceIn> <" ++ BASE_URI ++
                 "expression/issue_" ++ pyStr issue_id ++ "> ."
             , "<" ++ BASE_URI ++ "expression/issue_" ++ pyStr issue_id ++ "> <" ++
                 NAMESPACE ++ "firstAppearance> " ++ char_uri ++ " ." ]
      else pure []
    else pure [])
  let tFr := if truthy series_id then
      [char_uri ++ " <" ++ NAMESPACE ++ "belongsToFranchise> <" ++ BASE_URI ++
        "work/series_" ++ pyStr series_id ++ "> ."]
    else []
  pure (tFA ++ tFr)

/-- Name-pattern tag triples of `generate_character_triples` (source lines
390–403); requires the character name to be a string (Python lower()). -/
def character_tag_triples (char_data : Json) : Option (List String) := do
  let nameJ ← pyIndex char_data "name"
  let nameS ← (match nameJ with | Json.str s => some s | _ => none)
  let low := lowerStr nameS
  let themes :=
    (if anyKw ["spider", "web", "arachnid"] low then ["Spider-Powers"] else []) ++
    (if anyKw ["dark", "shadow", "night"] low then ["Dark-Vigilante"] else []) ++
    (if anyKw ["super", "man", "woman", "girl", "boy"] low then ["Superhero"] else [])
  pure (themes.flatMap (fun theme_name =>
    [ "<" ++ BASE_URI ++ "tag/" ++ safe_uri (Json.str theme_name) ++ "> a <" ++
        NAMESPACE ++ "Tag> ."
    , "<" ++ BASE_URI ++ "tag/" ++ safe_uri (Json.str theme_name) ++
        "> <http://www.w3.org/2000/01/rdf-schema#label> \"" ++ theme_name ++ "\" ." ]))

/-- `generate_character_triples` from the source (fallible: raises on a
missing or non-string `name`). `series_id` and `issue_id` are the values
passed by `process_issue` (None modelled as `Json.null`). -/
def generate_character_triples (char_data : Json) (series_id issue_id : Json) :
    Option (List String) := do
  let cid0 ← pyGetD char_data "id" (Json.str "")
  let char_id ← (if truthy cid0 then pure (pyStr cid0) else do
      let nm ← pyIndex char_data "name"
      pure (safe_uri nm))
  let char_uri := "<" ++ BASE_URI ++ "character/" ++ char_id ++ ">"
  let nameJ ← pyIndex char_data "name"
  let t0 := [ char_uri ++ " a <" ++ NAMESPACE ++ "Character> ."
            , char_uri ++ " <http://www.w3.org/2000/01/rdf-schema#label> \"" ++
                escape_sparql_string nameJ ++ "\" ."
            , char_uri ++ " <" ++ NAMESPACE ++ "characterName> \"" ++
                escape_sparql_string nameJ ++ "\" ." ]
  let t1 ← character_scalar_triples char_uri char_data
  let t2 ← character_link_triples char_uri char_data series_id issue_id
  let t3 ← character_tag_triples char_data
  pure (t0 ++ t1 ++ t2 ++ t3)

/-- `generate_group_triples` from the source; the default argument of
`.get("id", safe_uri(team_data["name"]))` is evaluated eagerly, so a missing
`name` raises even when `id` is present. -/
def generate_group_triples (team_data : Json) : Option (List String) := do
  let nmJ ← pyIndex team_data "name"
  let tidJ ← pyGetD team_data "id" (Json.str (safe_uri nmJ))
  let team_uri := "<" ++ BASE_URI ++ "group/" ++ pyStr tidJ ++ ">"
  let t0 := [ team_uri ++ " a <" ++ NAMESPACE ++ "Group> ."
            , team_uri ++ " <http://www.w3.org/2000/01/rdf-schema#label> \"" ++
                escape_sparql_string nmJ ++ "\" ."
            , team_uri ++ " <" ++ NAMESPACE ++ "groupName> \"" ++
                escape_sparql_string nmJ ++ "\" ." ]
  let tType := [team_uri ++ " <" ++ NAMESPACE ++ "groupType> \"Hero Team\" ."]
  let deJ ← pyGetD team_data "desc" Json.null
  let tDesc ← (if truthy deJ then do
      let d1 ← pyIndex team_data "desc"
      let sl ← pySlice d1 1000
      pure [team_uri ++ " <" ++ NAMESPACE ++ "purpose> \"" ++
        escape_sparql_string sl ++ "\" ."]
    else pure [])
  pure (t0 ++ tType ++ tDesc)

/-- `generate_universe_triples` from the source: returns the empty triple
list (without error) when the id or the name is missing/falsy. -/
def generate_universe_triples (universe_data : Json) : Option (List String) := do
  let nm0 ← pyGetD universe_data "name" (Json.str "")
  let uidJ ← pyGetD universe_data "id" (Json.str (safe_uri nm0))
  let nmG ← pyGetD universe_data "name" Json.null
  if !truthy uidJ || !truthy nmG then pure []
  else do
    let univ_uri := "<" ++ BASE_URI ++ "universe/" ++ pyStr uidJ ++ ">"
    let nameJ ← pyIndex universe_data "name"
    let t0 := [ univ_uri ++ " a <" ++ NAMESPACE ++ "Universe> ."
              , univ_uri ++ " <http://www.w3.org/2000/01/rdf-schema#label> \"" ++
                  escape_sparql_string nameJ ++ "\" ."
              , univ_uri ++ " <" ++ NAMESPACE ++ "universeName> \"" ++
                  escape_sparql_string nameJ ++ "\" ." ]
    let nameS ← (match nameJ with | Json.str s => some s | _ => none)
    let tDes := if strIn "earth" (lowerStr nameS) || strIn "universe" (lowerStr nameS) then
        [univ_uri ++ " <" ++ NAMESPACE ++ "designation> \"" ++
          escape_sparql_string nameJ ++ "\" ."]
      else []
    let deJ ← pyGetD universe_data "desc" Json.null
    let tDesc ← (if truthy deJ then do
        let d1 ← pyIndex universe_data "desc"
        let sl ← pySlice d1 1000
        pure [univ_uri ++ " <" ++ NAMESPACE ++ "universeDescription> \"" ++
          escape_sparql_string sl ++ "\" ."]
      else pure [])
    pure (t0 ++ tDes ++ tDesc)

/-- Credit-section triples of `process_issue` (source lines 477–479): for
each enumerated credit, person triples then credit triples. -/
def process_issue_credits (issue_id : Json) (issue : Json) : Option (List String) := do
  let credsJ ← pyGetD issue "credits" (Json.arr [])
  let creds ← pyIter credsJ
  let ls ← creds.enum.mapM (fun ci => do
      let cid ← pyIndex ci.2 "id"
      let cname ← pyIndex ci.2 "creator"
      let cr ← generate_credit_triples issue_id ci.2 ci.1
      pure (generate_person_triples cid cname ++ cr))
  pure ls.flatten

/-- The per-character `series_id` computed by `process_issue` (source line
483): `issue["series"]["id"] if "series" in issue and issue["series"] else
None`. -/
def process_issue_series_id (issue : Json) : Option Json :=
  if hasKey issue "series" then do
    let ser ← pyIndex issue "series"
    if truthy ser then pyIndex ser "id" else pure Json.null
  else pure Json.null

/-- Organization-section triples of `process_issue` (source lines 461–467). -/
def process_issue_orgs (issue : Json) : Option (List String) := do
  let tPub ← (if hasKey issue "publisher" then do
      let pub ← pyIndex issue "publisher"
      if truthy pub then do
        let pid ← pyIndex pub "id"
        let pname ← pyIndex pub "name"
        pure (generate_org_triples pid pname "Publisher")
      else pure []
    else pure [])
  let tImp ← (if hasKey issue "imprint" then do
      let imp ← pyIndex issue "imprint"
      if truthy imp then do
        let iid ← pyIndex imp "id"
        let iname ← pyIndex imp "name"
        pure (generate_org_triples iid iname "Imprint")
      else pure []
    else pure [])
  pure (tPub ++ tImp)


/-- Series-section triples of `process_issue` (source lines 470–471). -/
def process_issue_series (issue : Json) : Option (List String) :=
  if hasKey issue "series" then do
    let ser ← pyIndex issue "series"
    if truthy ser then do
      let sid ← pyIndex ser "id"
      generate_series_triples sid ser
    else pure []
  else pure []

/-- Character-section triples of `process_issue` (source lines 482–484). -/
def process_issue_chars (issue : Json) (issue_id : Json) : Option (List String) := do
  let serId ← process_issue_series_id issue
  let charsJ ← pyGetD issue "characters" (Json.arr [])
  let chars ← pyIter charsJ
  let ls ← chars.mapM (fun ch => generate_character_triples ch serId issue_id)
  pure ls.flatten

/-- Team-section triples of `process_issue` (source lines 487–488). -/
def process_issue_teams (issue : Json) : Option (List String) := do
  let teamsJ ← pyGetD issue "teams" (Json.arr [])
  let teams ← pyIter teamsJ
  let ls ← teams.mapM generate_group_triples
  pure ls.flatten

/-- Universe-section triples of `process_issue` (source lines 491–492). -/
def process_issue_universes (issue : Json) : Option (List String) := do
  let univsJ ← pyGetD issue "universes" (Json.arr [])
  let univs ← pyIter univsJ
  let ls ← univs.mapM generate_universe_triples
  pure ls.flatten

/-- All triples for one issue, in the emission order of `process_issue`
(source lines 458–492). -/
def process_issue_triples (issue : Json) : Option (List String) := do
  let issue_id ← pyIndex issue "id"
  let tOrg ← process_issue_orgs issue
  let tSer ← process_issue_series issue
  let tIss ← generate_issue_triples issue
  let tCred ← process_issue_credits issue_id issue
  let tChar ← process_issue_chars issue issue_id
  let tTeam ← process_issue_teams issue
  let tUniv ← process_issue_universes issue
  pure (tOrg ++ tSer ++ tIss ++ tCred ++ tChar ++ tTeam ++ tUniv)

/-- `process_issue` from the source: the yielded lines of one INSERT DATA
block (empty when there are no triples); `none` models an uncaught
exception. -/
def process_issue (issue : Json) : Option (List String) :=
  match process_issue_triples issue with
  | none => none
  | some all_triples =>
    if all_triples.isEmpty then some []
    else some (("INSERT DATA \x7b\n") ::
      (all_triples.map (fun t => "  " ++ t ++ "\n") ++ ["\x7d ;\n\n"]))

-- ------------------------------------------------------------------
-- Streaming array scanner (stream_json_array) and driver (main)
-- ------------------------------------------------------------------

/-- State of the `stream_json_array` character loop: the accumulated segment
buffer, brace depth, string/escape flags, the count of decoded elements, the
yielded elements, the number of warnings printed to stderr, and whether the
generator has returned (limit reached). -/
structure ScanSt where
  buffer : List Char
  depth : Int
  inStr : Bool
  esc : Bool
  count : Nat
  out : List Json
  warns : Nat
  halted : Bool

/-- Initial scanner state. -/
def initSt : ScanSt := ⟨[], 0, false, false, 0, [], 0, false⟩

/-- Python `if limit and count >= limit` (None and 0 are both falsy). -/
def limitHit (limit : Option Nat) (count : Nat) : Bool :=
  match limit with
  | none => false
  | some l => (l != 0) && decide (l ≤ count)

/-- The flush step of `stream_json_array` (source lines 538–549): strip the
buffer, drop trailing commas, and decode unless empty or the closing
bracket; decode failures count a warning. `d`/`s` are the depth and
in-string flag after the current character. -/
def flushBuf (limit : Option Nat) (st : ScanSt) (buf : List Char) (d : Int) (s : Bool) :
    ScanSt :=
  let objStr := rstripComma (stripWS buf)
  if !objStr.isEmpty && objStr != [']'] then
    match json_loads objStr with
    | some v =>
      ⟨[], d, s, false, st.count + 1, st.out ++ [v], st.warns,
        limitHit limit (st.count + 1)⟩
    | none => ⟨[], d, s, false, st.count, st.out, st.warns + 1, false⟩
  else ⟨[], d, s, false, st.count, st.out, st.warns, false⟩

/-- The control part of the scanner state (depth, in-string, escape). -/
structure Auto where
  depth : Int
  inStr : Bool
  esc : Bool
deriving DecidableEq

/-- Control part of a full scanner state. -/
def autoOf (st : ScanSt) : Auto := ⟨st.depth, st.inStr, st.esc⟩

/-- Control transition of one scanner character (mirrors `scanStep` minus
buffering and flushing). -/
def autoStep (a : Auto) (c : Char) : Auto :=
  if a.esc then ⟨a.depth, a.inStr, false⟩
  else if c == '\\' && a.inStr then ⟨a.depth, a.inStr, true⟩
  else
    let s := if c == '"' then !a.inStr else a.inStr
    let d := if !s && c == obrace then a.depth + 1
             else if !s && c == cbrace then a.depth - 1
             else a.depth
    ⟨d, s, false⟩

/-- Iterated control transition. -/
def autoRun (a : Auto) (cs : List Char) : Auto := cs.foldl autoStep a

/-- The start state of the control automaton. -/
def startAuto : Auto := ⟨0, false, false⟩

/-- One character of the `stream_json_array` loop (source lines 514–549). -/
def scanStep (limit : Option Nat) (st : ScanSt) (c : Char) : ScanSt :=
  if st.halted then st
  else if st.esc then
    ⟨st.buffer ++ [c], st.depth, st.inStr, false, st.count, st.out, st.warns, false⟩
  else if c == '\\' && st.inStr then
    ⟨st.buffer ++ [c], st.depth, st.inStr, true, st.count, st.out, st.warns, false⟩
  else
    let a := autoStep (autoOf st) c
    let buf := st.buffer ++ [c]
    if a.depth == 0 && !(stripWS buf).isEmpty && !a.inStr then
      flushBuf limit st buf a.depth a.inStr
    else ⟨buf, a.depth, a.inStr, false, st.count, st.out, st.warns, false⟩

/-- Run the scanner loop over a character sequence. -/
def runScan (limit : Option Nat) (st : ScanSt) (cs : List Char) : ScanSt :=
  cs.foldl (scanStep limit) st

/-- Python `file.readline()`: the first line including its newline, and the
remaining characters. -/
def splitLine : List Char → List Char × List Char
  | [] => ([], [])
  | c :: cs =>
    if c == '\n' then ([c], cs)
    else
      let p := splitLine cs
      (c :: p.1, p.2)

/-- `stream_json_array` from the source: `none` models the fatal ValueError
when the stripped first line does not start with `[`; otherwise the decoded
elements (in order) and the number of warnings emitted to stderr. The whole
first line is consumed by the opening-bracket check. -/
def stream_json_array (cs : List Char) (limit : Option Nat) : Option (List Json × Nat) :=
  let p := splitLine cs
  match lstripWS p.1 with
  | c :: _ =>
    if c == '[' then
      let fin := runScan limit initSt p.2
      some (fin.out, fin.warns)
    else none
  | [] => none

/-- The three header comment lines written by `main` (source lines 567–569). -/
def header_lines (input_file : String) : String :=
  "# SPARQL INSERT statements generated from " ++ input_file ++ "\n" ++
  "# Namespace: " ++ NAMESPACE ++ "\n" ++
  "# Base URI: " ++ BASE_URI ++ "\n\n"

/-- Python `str.rstrip()` on a string. -/
def rstripStr (s : String) : String := String.mk (rstripWSl s.data)

/-- Python `''.join(parts)`. -/
def join_strings (l : List String) : String := String.mk ((l.map String.data).flatten)

/-- The driver `main` from the source, up to the text written to the output
sink: scan with the limit, skip the first `skip` decoded elements, collect
the block lines of each remaining issue, then write header plus the joined
blocks with trailing whitespace stripped and one trailing `;` removed.
`none` models an uncaught exception (bad input format or a generator
error); stderr progress output is not part of the primary output. -/
def main_pipeline (input_file : String) (cs : List Char) (limit : Option Nat)
    (skip : Nat) : Option String :=
  match stream_json_array cs limit with
  | none => none
  | some r =>
    match (r.1.drop skip).mapM process_issue with
    | none => none
    | some blocks =>
      let buf := blocks.flatten
      if buf.isEmpty then some (header_lines input_file)
      else
        let text0 := rstripStr (join_strings buf)
        let text := if text0.data.getLast? == some ';' then String.mk text0.data.dropLast
                    else text0
        some (header_lines input_file ++ text ++ "\n")

example : stream_json_array (("[\n\x7b\"id\": \"a\"\x7d,\n\x7b\"id\": \"b\"\x7d\n]").data)
    none = some ([Json.obj [("id", Json.str "a")], Json.obj [("id", Json.str "b")]], 0) := by
  rfl

example : stream_json_array (("[\n\x7b\"id\": \"a\"\x7d,\n\x7b\"id\": \"b\"\x7d\n]").data)
    (some 1) = some ([Json.obj [("id", Json.str "a")]], 0) := by rfl

example : stream_json_array (("x\n\x7b\"id\": \"a\"\x7d\n]").data) none = none := by rfl

-- ------------------------------------------------------------------
-- Scanner metatheory: the depth/string/escape automaton and segments
-- ------------------------------------------------------------------


/-- A well-formed object segment for the scanner: starts with `{`, ends with
`}`, the automaton returns to the start state exactly at the end, and every
proper nonempty prefix leaves the automaton at positive depth or inside a
string (so the scanner flushes exactly once, at the closing brace). Every
serialization of a JSON object emitted by a standard serializer satisfies
this. -/
def SegInv (s : List Char) : Prop :=
  s.head? = some obrace ∧ s.getLast? = some cbrace ∧
  autoRun startAuto s = startAuto ∧
  ∀ i : Fin (s.length - 1),
    0 < (autoRun startAuto (s.take (i.1 + 1))).depth ∨
    (autoRun startAuto (s.take (i.1 + 1))).inStr = true

instance (s : List Char) : Decidable (SegInv s) := by
  unfold SegInv; infer_instance

/-- Scanner entry condition between segments: whitespace-only buffer, depth
zero, outside strings, no pending escape, not halted. -/
def EntryApprox (st : ScanSt) : Prop :=
  stripWS st.buffer = [] ∧ st.depth = 0 ∧ st.inStr = false ∧ st.esc = false ∧
  st.halted = false

/-- The serialized-array tail fed to the scanner after the opening-bracket
line: segments separated by comma-newline, closed by newline-bracket. -/
def sepJoin : List (List Char) → List Char
  | [] => ['\n', ']']
  | [s] => s ++ ['\n', ']']
  | s :: rest => s ++ [',', '\n'] ++ sepJoin rest

theorem runScan_append (limit : Option Nat) (st : ScanSt) (xs ys : List Char) :
    runScan limit st (xs ++ ys) = runScan limit (runScan limit st xs) ys :=
  List.foldl_append _ _ _ _

theorem stripWS_eq_nil_iff {l : List Char} :
    stripWS l = [] ↔ ∀ c ∈ l, isPyWS c := by
  unfold stripWS rstripWSl lstripWS
  rw [List.reverse_eq_nil_iff, List.dropWhile_eq_nil_iff]
  constructor
  · intro h c hc
    by_cases hw : isPyWS c
    · exact hw
    · -- c survives the left strip, hence appears in the dropWhile result
      exfalso
      have hsplit := List.takeWhile_append_dropWhile (p := isPyWS) (l := l)
      rw [← hsplit] at hc
      rcases List.mem_append.mp hc with h1 | h2
      · exact hw (List.mem_takeWhile_imp h1)
      · exact hw (h c (List.mem_reverse.mpr h2))
  · intro h c hc
    exact h c (List.Sublist.mem (List.mem_reverse.mp hc) (List.dropWhile_sublist _))

theorem lstripWS_append_of_ws {w : List Char} (hw : ∀ c ∈ w, isPyWS c)
    (t : List Char) : lstripWS (w ++ t) = lstripWS t := by
  induction w with
  | nil => rfl
  | cons c rest ih =>
    have hc : isPyWS c := hw c (List.mem_cons_self c rest)
    have hrest : ∀ x ∈ rest, isPyWS x := fun x hx => hw x (List.mem_cons_of_mem c hx)
    simp only [List.cons_append, lstripWS, List.dropWhile_cons, hc, if_true]
    exact ih hrest

theorem lstripWS_of_head {t : List Char} {c : Char} (h : t.head? = some c)
    (hc : isPyWS c = false) : lstripWS t = t := by
  cases t with
  | nil => rfl
  | cons x rest =>
    simp only [List.head?_cons, Option.some.injEq] at h
    subst h
    simp [lstripWS, List.dropWhile_cons, hc]

theorem rstripWSl_concat_of_nonws {q : List Char} {c : Char} (hc : isPyWS c = false) :
    rstripWSl (q ++ [c]) = q ++ [c] := by
  simp [rstripWSl, List.dropWhile_cons, hc]

theorem stripWS_ws_append {w s : List Char} (hw : stripWS w = [])
    (hhead : ∃ c, s.head? = some c ∧ isPyWS c = false)
    (hlast : ∃ c, s.getLast? = some c ∧ isPyWS c = false) :
    stripWS (w ++ s) = s := by
  obtain ⟨ch, hch, hcw⟩ := hhead
  obtain ⟨cl, hcl, hclw⟩ := hlast
  have hwall : ∀ c ∈ w, isPyWS c := stripWS_eq_nil_iff.mp hw
  unfold stripWS
  rw [lstripWS_append_of_ws hwall, lstripWS_of_head hch hcw]
  have hs : s ≠ [] := by
    intro he; rw [he] at hch; simp at hch
  rw [← List.dropLast_append_getLast hs]
  have : s.getLast hs = cl := by
    have := List.getLast?_eq_getLast s hs
    rw [this] at hcl
    exact (Option.some.injEq _ _).mp hcl.symm ▸ rfl
  rw [this]
  exact rstripWSl_concat_of_nonws hclw

theorem rstripComma_concat_of_ne {q : List Char} {c : Char} (hc : (c == ',') = false) :
    rstripComma (q ++ [c]) = q ++ [c] := by
  simp [rstripComma, List.dropWhile_cons, hc]

theorem autoOf_mk (b : List Char) (d : Int) (s e : Bool) (c : Nat) (o : List Json)
    (w : Nat) (h : Bool) : autoOf ⟨b, d, s, e, c, o, w, h⟩ = ⟨d, s, e⟩ := rfl

theorem scanStep_noflush (limit : Option Nat) (st : ScanSt) (c : Char)
    (hh : st.halted = false)
    (hnf : 0 < (autoStep (autoOf st) c).depth ∨ (autoStep (autoOf st) c).inStr = true) :
    scanStep limit st c =
      ⟨st.buffer ++ [c], (autoStep (autoOf st) c).depth, (autoStep (autoOf st) c).inStr,
        (autoStep (autoOf st) c).esc, st.count, st.out, st.warns, false⟩ := by
  unfold scanStep
  rw [hh]
  simp only [Bool.false_eq_true, if_false]
  cases hesc : st.esc with
  | true =>
    have ha : autoStep (autoOf st) c = ⟨st.depth, st.inStr, false⟩ := by
      unfold autoStep autoOf
      simp [hesc]
    rw [ha]
    simp
  | false =>
    simp only [if_false, Bool.false_eq_true]
    cases hbs : (c == '\\' && st.inStr) with
    | true =>
      have ha : autoStep (autoOf st) c = ⟨st.depth, st.inStr, true⟩ := by
        unfold autoStep autoOf
        simp only [hesc, Bool.false_eq_true, if_false, hbs, if_true]
      rw [ha]
      simp
    | false =>
      simp only [if_false, Bool.false_eq_true]
      have hesc2 : (autoStep (autoOf st) c).esc = false := by
        unfold autoStep autoOf
        simp [hesc, hbs]
      have hcond : ((autoStep (autoOf st) c).depth == 0 &&
          !(stripWS (st.buffer ++ [c])).isEmpty &&
          !(autoStep (autoOf st) c).inStr) = false := by
        rcases hnf with hd | hs
        · have : ((autoStep (autoOf st) c).depth == 0) = false := by
            simp only [beq_eq_false_iff_ne, ne_eq]
            omega
          simp [this]
        · simp [hs]
      simp only [hcond, Bool.false_eq_true, if_false, hesc2]

theorem runScan_noflush (limit : Option Nat) (st : ScanSt) (cs : List Char)
    (hh : st.halted = false)
    (hnf : ∀ p : List Char, ∀ c : Char, (p ++ [c]) <+: cs →
      0 < (autoRun (autoOf st) (p ++ [c])).depth ∨
        (autoRun (autoOf st) (p ++ [c])).inStr = true) :
    runScan limit st cs =
      ⟨st.buffer ++ cs, (autoRun (autoOf st) cs).depth, (autoRun (autoOf st) cs).inStr,
        (autoRun (autoOf st) cs).esc, st.count, st.out, st.warns, false⟩ := by
  induction cs generalizing st with
  | nil =>
    simp only [runScan, List.foldl_nil, autoRun, List.append_nil]
    cases st
    simp_all [autoOf]
  | cons c cs ih =>
    have h1 : ([] : List Char) ++ [c] <+: c :: cs := by simp
    have hstep := scanStep_noflush limit st c hh (by
      have := hnf [] c h1
      simpa [autoRun] using this)
    have hrun : runScan limit st (c :: cs) = runScan limit (scanStep limit st c) cs := by
      simp [runScan, List.foldl_cons]
    rw [hrun, hstep]
    have hih := ih (⟨st.buffer ++ [c], (autoStep (autoOf st) c).depth,
        (autoStep (autoOf st) c).inStr, (autoStep (autoOf st) c).esc,
        st.count, st.out, st.warns, false⟩ : ScanSt) rfl ?_
    · rw [hih]
      have hau : autoOf ⟨st.buffer ++ [c], (autoStep (autoOf st) c).depth,
          (autoStep (autoOf st) c).inStr, (autoStep (autoOf st) c).esc,
          st.count, st.out, st.warns, false⟩ = autoStep (autoOf st) c := rfl
      rw [hau]
      have hcomp : autoRun (autoStep (autoOf st) c) cs = autoRun (autoOf st) (c :: cs) := by
        simp [autoRun, List.foldl_cons]
      rw [hcomp]
      simp
    · intro p c' hpre
      have hau : autoOf ⟨st.buffer ++ [c], (autoStep (autoOf st) c).depth,
          (autoStep (autoOf st) c).inStr, (autoStep (autoOf st) c).esc,
          st.count, st.out, st.warns, false⟩ = autoStep (autoOf st) c := rfl
      rw [hau]
      have hcomp : autoRun (autoStep (autoOf st) c) (p ++ [c']) =
          autoRun (autoOf st) (c :: (p ++ [c'])) := by
        simp [autoRun, List.foldl_cons]
      rw [hcomp]
      have : (c :: p) ++ [c'] <+: c :: cs :=
        List.cons_prefix_cons.mpr ⟨rfl, hpre⟩
      simpa using hnf (c :: p) c' this

theorem autoStep_of_esc {a : Auto} (h : a.esc = true) (c : Char) :
    autoStep a c = ⟨a.depth, a.inStr, false⟩ := by
  unfold autoStep
  simp [h]

theorem autoStep_cbrace_inStr {a : Auto} (hesc : a.esc = false) (hin : a.inStr = true) :
    autoStep a cbrace = ⟨a.depth, true, false⟩ := by
  have h1 : (cbrace == '\\') = false := by decide
  have h2 : (cbrace == '"') = false := by decide
  unfold autoStep
  simp [hesc, hin, h1, h2]

theorem autoStep_cbrace_out {a : Auto} (hesc : a.esc = false) (hin : a.inStr = false) :
    autoStep a cbrace = ⟨a.depth - 1, false, false⟩ := by
  have h1 : (cbrace == '\\') = false := by decide
  have h2 : (cbrace == '"') = false := by decide
  have h3 : (cbrace == obrace) = false := by decide
  have h4 : (cbrace == cbrace) = true := by decide
  unfold autoStep
  simp [hesc, hin, h1, h2, h3, h4]

theorem autoRun_concat (a : Auto) (q : List Char) (c : Char) :
    autoRun a (q ++ [c]) = autoStep (autoRun a q) c := by
  simp [autoRun, List.foldl_append]

/-- Running the scanner from a between-segments state over one well-formed
segment performs exactly one flush, at the segment's closing brace: on a
decodable segment the decoded element is yielded (and the limit checked);
otherwise one warning is counted. -/
theorem seg_run (limit : Option Nat) (st : ScanSt) (s : List Char)
    (hE : EntryApprox st) (hs : SegInv s) :
    runScan limit st s =
      match json_loads s with
      | some v => ⟨[], 0, false, false, st.count + 1, st.out ++ [v], st.warns,
          limitHit limit (st.count + 1)⟩
      | none => ⟨[], 0, false, false, st.count, st.out, st.warns + 1, false⟩ := by
  obtain ⟨hbuf, hd, hin, hesc, hhalt⟩ := hE
  obtain ⟨hhead, hlast, hfin, hpre⟩ := hs
  have hne : s ≠ [] := by
    intro h; rw [h] at hhead; simp at hhead
  have hsq : s = s.dropLast ++ [s.getLast hne] := (List.dropLast_append_getLast hne).symm
  have hgl : s.getLast hne = cbrace := by
    have h2 := List.getLast?_eq_getLast s hne
    rw [h2] at hlast
    exact Option.some.inj hlast
  set q := s.dropLast with hqdef
  rw [hgl] at hsq
  have hq_ne : q ≠ [] := by
    intro h
    rw [h] at hsq
    simp at hsq
    rw [hsq] at hhead
    simp at hhead
    exact absurd hhead (by decide)
  have hao : autoOf st = startAuto := by
    unfold autoOf startAuto
    rw [hd, hin, hesc]
  have hq_pre_s : q <+: s := ⟨[cbrace], hsq.symm⟩
  have hqlen : q.length = s.length - 1 := by
    rw [hqdef]; exact List.length_dropLast s
  have hslen : 2 ≤ s.length := by
    have h1 : q.length ≠ 0 := fun h => hq_ne (List.eq_nil_of_length_eq_zero h)
    have h2 : s.length = q.length + 1 := by rw [hsq]; simp
    omega
  have hnfq : ∀ p : List Char, ∀ c' : Char, (p ++ [c']) <+: q →
      0 < (autoRun (autoOf st) (p ++ [c'])).depth ∨
        (autoRun (autoOf st) (p ++ [c'])).inStr = true := by
    intro p c' hpq
    rw [hao]
    have hps : (p ++ [c']) <+: s := hpq.trans hq_pre_s
    have hlen : (p ++ [c']).length ≤ q.length := hpq.length_le
    have hplen : 1 ≤ (p ++ [c']).length := by simp
    have hidx : (p ++ [c']).length - 1 < s.length - 1 := by omega
    have hcond := hpre ⟨(p ++ [c']).length - 1, hidx⟩
    have htake : s.take ((p ++ [c']).length - 1 + 1) = p ++ [c'] := by
      have h1 : (p ++ [c']).length - 1 + 1 = (p ++ [c']).length := by omega
      rw [h1]
      exact (List.prefix_iff_eq_take.mp hps).symm
    rw [htake] at hcond
    exact hcond
  have hq_run := runScan_noflush limit st q hhalt hnfq
  rw [hao] at hq_run
  set A := autoRun startAuto q with hA
  have hqcond : 0 < A.depth ∨ A.inStr = true := by
    have hq2 : q = q.dropLast ++ [q.getLast hq_ne] := (List.dropLast_append_getLast hq_ne).symm
    have hx := hnfq q.dropLast (q.getLast hq_ne) (by rw [← hq2])
    rw [hao, ← hq2] at hx
    exact hx
  have hfin2 : autoStep A cbrace = startAuto := by
    rw [hsq, autoRun_concat] at hfin
    exact hfin
  have hAesc : A.esc = false := by
    by_contra hcon
    have h' : A.esc = true := by simpa using hcon
    rw [autoStep_of_esc h'] at hfin2
    unfold startAuto at hfin2
    simp only [Auto.mk.injEq] at hfin2
    rcases hqcond with hq1 | hq2
    · omega
    · rw [hfin2.2.1] at hq2; exact Bool.false_ne_true hq2
  have hAin : A.inStr = false := by
    by_contra hcon
    have h' : A.inStr = true := by simpa using hcon
    rw [autoStep_cbrace_inStr hAesc h'] at hfin2
    unfold startAuto at hfin2
    simp only [Auto.mk.injEq] at hfin2
    exact absurd hfin2.2.1 (by decide)
  have hAd : A.depth = 1 := by
    rw [autoStep_cbrace_out hAesc hAin] at hfin2
    unfold startAuto at hfin2
    simp only [Auto.mk.injEq] at hfin2
    omega
  -- run over the whole segment: the q part, then the closing brace
  rw [hsq, runScan_append, hq_run]
  -- the final character flushes
  have hstrip : stripWS (st.buffer ++ (q ++ [cbrace])) = q ++ [cbrace] := by
    apply stripWS_ws_append hbuf
    · refine ⟨obrace, ?_, by decide⟩
      rw [← hsq]; exact hhead
    · exact ⟨cbrace, by simp, by decide⟩
  have hrc : rstripComma (q ++ [cbrace]) = q ++ [cbrace] :=
    rstripComma_concat_of_ne (by decide)
  have hsne : (q ++ [cbrace]) ≠ [']'] := by
    intro hcon
    rw [← hsq] at hcon
    rw [hcon] at hhead
    simp at hhead
    exact absurd hhead (by decide)
  show scanStep limit
      ⟨st.buffer ++ q, A.depth, A.inStr, A.esc, st.count, st.out, st.warns, false⟩ cbrace = _
  unfold scanStep
  rw [hAd, hAin, hAesc]
  have hbs2 : (cbrace == '\\' && false) = false := by decide
  have hastep : autoStep (autoOf ⟨st.buffer ++ q, 1, false, false, st.count, st.out,
      st.warns, false⟩) cbrace = ⟨0, false, false⟩ := by
    rw [autoOf_mk]
    rw [autoStep_cbrace_out rfl rfl]
    norm_num
  simp only [hbs2, Bool.false_eq_true, if_false, hastep]
  have hbufeq : (st.buffer ++ q) ++ [cbrace] = st.buffer ++ (q ++ [cbrace]) := by
    rw [List.append_assoc]
  rw [hbufeq, hstrip]
  have hemp : ((q ++ [cbrace]).isEmpty) = false := by simp
  have hbne : ((q ++ [cbrace]) != [']']) = true := bne_iff_ne.mpr hsne
  simp only [hemp, Bool.not_false, Bool.and_true, Bool.true_and, beq_self_eq_true, if_true]
  unfold flushBuf
  rw [hstrip, hrc]
  simp only [hemp, Bool.not_false, hbne, Bool.and_self, if_true]

theorem close_run (limit : Option Nat) (st : ScanSt) (hE : EntryApprox st) :
    runScan limit st ['\n', ']'] = ⟨[], 0, false, false, st.count, st.out, st.warns, false⟩ := by
  obtain ⟨hbuf, hd, hin, hesc, hhalt⟩ := hE
  have hao : autoOf st = startAuto := by
    unfold autoOf startAuto; rw [hd, hin, hesc]
  have hb2 : stripWS (st.buffer ++ ['\n']) = [] := by
    rw [stripWS_eq_nil_iff]
    intro c hc
    rcases List.mem_append.mp hc with h | h
    · exact stripWS_eq_nil_iff.mp hbuf c h
    · simp at h; rw [h]; decide
  have hst1 : scanStep limit st '\n' =
      ⟨st.buffer ++ ['\n'], 0, false, false, st.count, st.out, st.warns, false⟩ := by
    unfold scanStep
    rw [hhalt, hesc, hin, hao]
    have hbb : ('\n' == '\\' && false) = false := by decide
    have ha : autoStep startAuto '\n' = ⟨0, false, false⟩ := by decide
    simp only [Bool.false_eq_true, if_false, hbb, ha, hb2]
    simp
  have hstrip2 : stripWS ((st.buffer ++ ['\n']) ++ [']']) = [']'] := by
    apply stripWS_ws_append hb2
    · exact ⟨']', by simp, by decide⟩
    · exact ⟨']', by simp, by decide⟩
  have hst2 : scanStep limit
      ⟨st.buffer ++ ['\n'], 0, false, false, st.count, st.out, st.warns, false⟩ ']' =
      ⟨[], 0, false, false, st.count, st.out, st.warns, false⟩ := by
    unfold scanStep
    have ha : autoStep (autoOf ⟨st.buffer ++ ['\n'], 0, false, false, st.count, st.out,
        st.warns, false⟩) ']' = ⟨0, false, false⟩ := by
      rw [autoOf_mk]; decide
    have hbb : (']' == '\\' && false) = false := by decide
    simp only [Bool.false_eq_true, if_false, hbb, ha, hstrip2]
    unfold flushBuf
    rw [hstrip2]
    have hrc : rstripComma [']'] = [']'] := by decide
    rw [hrc]
    simp
  show scanStep limit (scanStep limit st '\n') ']' = _
  rw [hst1, hst2]

theorem sep_run (limit : Option Nat) (st : ScanSt) (hE : EntryApprox st) :
    runScan limit st [',', '\n'] =
      ⟨['\n'], 0, false, false, st.count, st.out, st.warns, false⟩ := by
  obtain ⟨hbuf, hd, hin, hesc, hhalt⟩ := hE
  have hao : autoOf st = startAuto := by
    unfold autoOf startAuto; rw [hd, hin, hesc]
  have hstrip1 : stripWS (st.buffer ++ [',']) = [','] := by
    apply stripWS_ws_append hbuf
    · exact ⟨',', by simp, by decide⟩
    · exact ⟨',', by simp, by decide⟩
  have hst1 : scanStep limit st ',' =
      ⟨[], 0, false, false, st.count, st.out, st.warns, false⟩ := by
    unfold scanStep
    rw [hhalt, hesc, hin, hao]
    have hbb : (',' == '\\' && false) = false := by decide
    have ha : autoStep startAuto ',' = ⟨0, false, false⟩ := by decide
    simp only [Bool.false_eq_true, if_false, hbb, ha, hstrip1]
    unfold flushBuf
    rw [hstrip1]
    have hrc : rstripComma [','] = [] := by decide
    rw [hrc]
    simp
  have hst2 : scanStep limit ⟨[], 0, false, false, st.count, st.out, st.warns, false⟩ '\n' =
      ⟨['\n'], 0, false, false, st.count, st.out, st.warns, false⟩ := by
    unfold scanStep
    have ha : autoStep (autoOf ⟨[], 0, false, false, st.count, st.out, st.warns, false⟩)
        '\n' = ⟨0, false, false⟩ := by
      rw [autoOf_mk]; decide
    have hbb : ('\n' == '\\' && false) = false := by decide
    have hstr : stripWS (([] : List Char) ++ ['\n']) = [] := by decide
    simp only [Bool.false_eq_true, if_false, hbb, ha, hstr]
    simp
  show scanStep limit (scanStep limit st ',') '\n' = _
  rw [hst1, hst2]

/-- Running the scanner over the serialized tail of an array of well-formed
segments yields exactly the decodable segments' values in order, counting
one warning per undecodable segment, and never halts when no limit is set. -/
theorem runScan_sepJoin (st : ScanSt) (ss : List (List Char)) (hE : EntryApprox st)
    (hss : ∀ s ∈ ss, SegInv s) :
    runScan none st (sepJoin ss) =
      ⟨[], 0, false, false, st.count + ss.countP (fun s => (json_loads s).isSome),
        st.out ++ ss.filterMap json_loads,
        st.warns + ss.countP (fun s => (json_loads s).isNone), false⟩ := by
  induction ss generalizing st with
  | nil =>
    show runScan none st ['\n', ']'] = _
    rw [close_run none st hE]
    simp
  | cons s rest ih =>
    cases rest with
    | nil =>
      show runScan none st (s ++ ['\n', ']']) = _
      rw [runScan_append, seg_run none st s hE (hss s (by simp))]
      cases hj : json_loads s with
      | some v =>
        rw [show limitHit none (st.count + 1) = false from rfl]
        rw [close_run none ⟨[], 0, false, false, st.count + 1, st.out ++ [v],
          st.warns, false⟩ ⟨rfl, rfl, rfl, rfl, rfl⟩]
        simp [hj, List.countP_cons]
      | none =>
        rw [close_run none ⟨[], 0, false, false, st.count, st.out,
          st.warns + 1, false⟩ ⟨rfl, rfl, rfl, rfl, rfl⟩]
        simp [hj, List.countP_cons]
    | cons r rs =>
      show runScan none st ((s ++ [',', '\n']) ++ sepJoin (r :: rs)) = _
      rw [runScan_append, runScan_append,
        seg_run none st s hE (hss s (by simp))]
      cases hj : json_loads s with
      | some v =>
        rw [show limitHit none (st.count + 1) = false from rfl]
        rw [sep_run none ⟨[], 0, false, false, st.count + 1, st.out ++ [v],
          st.warns, false⟩ ⟨rfl, rfl, rfl, rfl, rfl⟩]
        rw [ih ⟨['\n'], 0, false, false, st.count + 1, st.out ++ [v],
          st.warns, false⟩ ⟨rfl, rfl, rfl, rfl, rfl⟩
          (fun x hx => hss x (List.mem_cons_of_mem s hx))]
        simp only [List.countP_cons, List.filterMap_cons, hj, Option.isSome_some,
          Option.isNone_some, Bool.false_eq_true, if_true, if_false]
        congr 1
        all_goals first
          | omega
          | simp [List.append_assoc]
      | none =>
        rw [sep_run none ⟨[], 0, false, false, st.count, st.out,
          st.warns + 1, false⟩ ⟨rfl, rfl, rfl, rfl, rfl⟩]
        rw [ih ⟨['\n'], 0, false, false, st.count, st.out,
          st.warns + 1, false⟩ ⟨rfl, rfl, rfl, rfl, rfl⟩
          (fun x hx => hss x (List.mem_cons_of_mem s hx))]
        simp only [List.countP_cons, List.filterMap_cons, hj, Option.isSome_none,
          Option.isNone_none, Bool.false_eq_true, if_true, if_false]
        congr 1
        all_goals omega

/-- The scanner on a serialized array (bracket line, then segments joined by
comma-newline, then the closing-bracket line). -/
theorem stream_json_array_sepJoin (ss : List (List Char)) (hss : ∀ s ∈ ss, SegInv s) :
    stream_json_array ('[' :: '\n' :: sepJoin ss) none =
      some (ss.filterMap json_loads, ss.countP (fun s => (json_loads s).isNone)) := by
  show some ((runScan none initSt (sepJoin ss)).out, (runScan none initSt (sepJoin ss)).warns) = _
  rw [runScan_sepJoin initSt ss ⟨rfl, rfl, rfl, rfl, rfl⟩ hss]
  simp [initSt]

/-- C3: round-trip of the streaming scanner. For every list of well-formed
object segments decoding to the original elements, scanning the serialized
array yields exactly those elements, in order, with no warnings. The
serialization puts the opening bracket on its own line, as the scanner's
first-line contract requires (see C9), and separates elements by
comma-newline. -/
theorem roundtrip_aux_seginv (ss : List (List Char)) (vs : List Json)
    (h : List.Forall₂ (fun s v => SegInv s ∧ json_loads s = some v) ss vs) :
    ∀ s ∈ ss, SegInv s := by
  induction h with
  | nil => intro s hs; simp at hs
  | cons hp _ ih =>
    intro s hs
    rcases List.mem_cons.mp hs with he | hm
    · rw [he]; exact hp.1
    · exact ih s hm

theorem roundtrip_aux_filterMap (ss : List (List Char)) (vs : List Json)
    (h : List.Forall₂ (fun s v => SegInv s ∧ json_loads s = some v) ss vs) :
    ss.filterMap json_loads = vs := by
  induction h with
  | nil => rfl
  | cons hp _ ih => simp [List.filterMap_cons, hp.2, ih]

theorem roundtrip_aux_countP (ss : List (List Char)) (vs : List Json)
    (h : List.Forall₂ (fun s v => SegInv s ∧ json_loads s = some v) ss vs) :
    ss.countP (fun s => (json_loads s).isNone) = 0 := by
  induction h with
  | nil => rfl
  | cons hp _ ih => simp [List.countP_cons, hp.2, ih]

theorem C3_stream_roundtrip (ss : List (List Char)) (vs : List Json)
    (h : List.Forall₂ (fun s v => SegInv s ∧ json_loads s = some v) ss vs) :
    stream_json_array ('[' :: '\n' :: sepJoin ss) none = some (vs, 0) ∧
      vs.length = ss.length := by
  rw [stream_json_array_sepJoin ss (roundtrip_aux_seginv ss vs h),
    roundtrip_aux_filterMap ss vs h, roundtrip_aux_countP ss vs h]
  exact ⟨rfl, h.length_eq.symm⟩

/-- Witness for C3 at a concrete one-element array. -/
theorem C3_witness :
    stream_json_array ('[' :: '\n' :: sepJoin [("\x7b\"id\": \"a\"\x7d").data]) none =
      some ([Json.obj [("id", Json.str "a")]], 0) :=
  (C3_stream_roundtrip [("\x7b\"id\": \"a\"\x7d").data] [Json.obj [("id", Json.str "a")]]
    (List.Forall₂.cons ⟨by decide, by rfl⟩ List.Forall₂.nil)).1

/-- C4: an array with one syntactically-broken (but brace-balanced) element
between two well-formed elements yields exactly the two well-formed
elements, in order, with exactly one warning counted on the diagnostic
channel (stderr in the source; the primary output stream — the yielded
elements — is unaffected), and the scan does not raise (the result is
`some`, not the fatal `none`). The broken segment is dropped, never
retried. -/
theorem C4_broken_element_recovery (s1 sb s3 : List Char) (v1 v3 : Json)
    (h1 : SegInv s1) (hb : SegInv sb) (h3 : SegInv s3)
    (j1 : json_loads s1 = some v1) (jb : json_loads sb = none)
    (j3 : json_loads s3 = some v3) :
    stream_json_array ('[' :: '\n' :: sepJoin [s1, sb, s3]) none = some ([v1, v3], 1) := by
  have hseg : ∀ s ∈ [s1, sb, s3], SegInv s := by
    intro s hs
    rcases List.mem_cons.mp hs with he | hs2
    · rw [he]; exact h1
    rcases List.mem_cons.mp hs2 with he | hs3
    · rw [he]; exact hb
    rcases List.mem_cons.mp hs3 with he | hs4
    · rw [he]; exact h3
    · simp at hs4
  rw [stream_json_array_sepJoin [s1, sb, s3] hseg]
  simp [List.filterMap_cons, List.countP_cons, j1, jb, j3]

/-- Witness for C4: `{"a" "x"}` is brace-balanced but not valid JSON. -/
theorem C4_witness :
    stream_json_array ('[' :: '\n' ::
      sepJoin [("\x7b\"id\": \"a\"\x7d").data, ("\x7b\"a\" \"x\"\x7d").data,
        ("\x7b\"id\": \"c\"\x7d").data]) none =
      some ([Json.obj [("id", Json.str "a")], Json.obj [("id", Json.str "c")]], 1) :=
  C4_broken_element_recovery _ _ _ _ _ (by decide) (by decide) (by decide)
    (by rfl) (by rfl) (by rfl)

theorem splitLine_no_nl {xs : List Char} (h : '\n' ∉ xs) (r : List Char) :
    splitLine (xs ++ '\n' :: r) = (xs ++ ['\n'], r) := by
  induction xs with
  | nil => simp [splitLine]
  | cons c cs ih =>
    have hc : (c == '\n') = false := by
      simp only [beq_eq_false_iff_ne, ne_eq]
      intro he
      exact h (he ▸ List.mem_cons_self c cs)
    have hcs : '\n' ∉ cs := fun hm => h (List.mem_cons_of_mem c hm)
    simp [splitLine, hc, ih hcs]

/-- C9: the opening-bracket check consumes the whole first line, so any
element text on the first line after `[` is silently discarded: the scan
result only depends on the characters after the first newline. The second
conjunct shows it on a concrete input — the first-line element is dropped,
only the second-line element is yielded, and no warning is emitted. -/
theorem C9_first_line_discarded (junk rest : List Char) (limit : Option Nat)
    (h : '\n' ∉ junk) :
    stream_json_array ('[' :: (junk ++ '\n' :: rest)) limit =
      stream_json_array ('[' :: '\n' :: rest) limit ∧
    stream_json_array (("[\x7b\"a\": \"x\"\x7d,\n\x7b\"b\": \"y\"\x7d\n]").data) none =
      some ([Json.obj [("b", Json.str "y")]], 0) := by
  constructor
  · have hnj : '\n' ∉ ('[' :: junk) := by
      intro hm
      rcases List.mem_cons.mp hm with he | hm2
      · exact absurd he (by decide)
      · exact h hm2
    have hsp : splitLine ('[' :: (junk ++ '\n' :: rest)) = ('[' :: junk ++ ['\n'], rest) := by
      have h2 := splitLine_no_nl hnj rest
      simpa using h2
    have hls : lstripWS ('[' :: junk ++ ['\n']) = '[' :: (junk ++ ['\n'])  := by
      apply lstripWS_of_head (c := '[')
      · simp
      · decide
    unfold stream_json_array
    rw [hsp]
    simp only [hls]
    rfl
  · rfl

/-- Witness for C9: a first line carrying an element after the bracket. -/
theorem C9_witness :
    stream_json_array ('[' :: ((("\x7b\"a\": \"x\"\x7d,").data) ++ '\n' ::
        (("\x7b\"b\": \"y\"\x7d\n]").data))) none =
      stream_json_array ('[' :: '\n' :: (("\x7b\"b\": \"y\"\x7d\n]").data)) none :=
  (C9_first_line_discarded (("\x7b\"a\": \"x\"\x7d,").data)
    (("\x7b\"b\": \"y\"\x7d\n]").data) none (by decide)).1

/-- The three-record input of the C1 scenario (ids are strings; any
well-formed issue records work the same way). -/
def c1_input : List Char :=
  ("[\n\x7b\"id\": \"a\"\x7d,\n\x7b\"id\": \"b\"\x7d,\n\x7b\"id\": \"c\"\x7d\n]").data

/-- C1 (code bug): with three well-formed records and skip=1, limit=1, the
driver processes NO record and emits NO update block — the output is the
bare header. The cause: `main` passes the limit to `stream_json_array`,
whose counter counts every decoded element, including the ones the driver
subsequently skips; the scanner stops after yielding the first record
(first conjunct), which the driver then skips. Under the claim (and the
`--limit` help text "Limit number of issues to process"), the second record
should have been processed and one block emitted. -/
theorem C1_limit_counts_skipped_elements :
    stream_json_array c1_input (some 1) = some ([Json.obj [("id", Json.str "a")]], 0) ∧
    main_pipeline ("comic_output.json") c1_input (some 1) 1 =
      some (header_lines ("comic_output.json")) ∧
    main_pipeline ("comic_output.json") c1_input none 1 ≠
      some (header_lines ("comic_output.json")) := by
  refine ⟨by rfl, by rfl, by decide⟩

-- ------------------------------------------------------------------
-- Claim C8: the final output never ends in a dangling block separator
-- ------------------------------------------------------------------

theorem mapM_option_mem {α β : Type} (f : α → Option β) (l : List α) (r : List β)
    (h : l.mapM f = some r) : ∀ b ∈ r, ∃ a, f a = some b := by
  induction l generalizing r with
  | nil =>
    rw [List.mapM_nil] at h
    cases h
    intro b hb
    simp at hb
  | cons a as ih =>
    rw [List.mapM_cons] at h
    cases hfa : f a with
    | none => rw [hfa] at h; simp at h
    | some b0 =>
      rw [hfa] at h
      cases hrest : as.mapM f with
      | none => rw [hrest] at h; simp at h
      | some r0 =>
        rw [hrest] at h
        simp at h
        subst h
        intro b hb
        rcases List.mem_cons.mp hb with he | hm
        · exact ⟨a, by rw [hfa, he]⟩
        · exact ih r0 hrest b hm

/-- The block terminator yielded by `process_issue`. -/
def blockEnd : String := "\x7d ;\n\n"

theorem process_issue_last (issue : Json) (ys : List String)
    (h : process_issue issue = some ys) :
    ys = [] ∨ ys.getLast? = some blockEnd := by
  unfold process_issue at h
  cases hts : process_issue_triples issue with
  | none => rw [hts] at h; simp at h
  | some ts =>
    rw [hts] at h
    replace h : (if ts.isEmpty then some ([] : List String)
        else some (("INSERT DATA \x7b\n") ::
          (ts.map (fun t => "  " ++ t ++ "\n") ++ ["\x7d ;\n\n"]))) = some ys := h
    by_cases he : ts.isEmpty
    · left
      rw [if_pos he] at h
      cases h
      rfl
    · right
      rw [if_neg he] at h
      simp only [Option.some.injEq] at h
      subst h
      show (("INSERT DATA \x7b\n") ::
        (ts.map (fun t => "  " ++ t ++ "\n") ++ [blockEnd])).getLast? = some blockEnd
      rw [show (("INSERT DATA \x7b\n") :: (ts.map (fun t => "  " ++ t ++ "\n") ++ [blockEnd])) =
        (("INSERT DATA \x7b\n") :: ts.map (fun t => "  " ++ t ++ "\n")) ++ [blockEnd] by simp]
      exact List.getLast?_concat _

theorem flatten_last_blockEnd (bs : List (List String))
    (h : ∀ b ∈ bs, b = [] ∨ b.getLast? = some blockEnd) :
    bs.flatten = [] ∨ bs.flatten.getLast? = some blockEnd := by
  induction bs with
  | nil => left; rfl
  | cons b rest ih =>
    rcases ih (fun x hx => h x (List.mem_cons_of_mem b hx)) with hf | hf
    · rcases h b (List.mem_cons_self b rest) with hb | hb
      · left; rw [List.flatten_cons, hb, hf]; rfl
      · right; rw [List.flatten_cons, hf, List.append_nil]; exact hb
    · right
      have hne : rest.flatten ≠ [] := by
        intro hcon; rw [hcon] at hf; simp at hf
      rw [List.flatten_cons, List.getLast?_append_of_ne_nil b hne]
      exact hf

theorem rstripWSl_split (Y : List Char) (c : Char) (w : List Char)
    (hc : isPyWS c = false) (hw : ∀ x ∈ w, isPyWS x) :
    rstripWSl (Y ++ [c] ++ w) = Y ++ [c] := by
  have h1 : rstripWSl (Y ++ [c] ++ w) = (lstripWS (Y ++ [c] ++ w).reverse).reverse := rfl
  rw [h1]
  have h2 : (Y ++ [c] ++ w).reverse = w.reverse ++ (c :: Y.reverse) := by
    simp
  rw [h2, lstripWS_append_of_ws (fun x hx => hw x (List.mem_reverse.mp hx)),
    lstripWS_of_head (c := c) (by simp) hc]
  simp

/-- C8: whenever the driver completes normally, the final output text does
not end in the block-separator character `;` — not even after stripping
trailing whitespace. With no blocks the output is the bare header (its last
non-whitespace character is the `/` of the base URI); with blocks, the
joined text ends in the block terminator, `rstrip` exposes the `;`, and the
driver removes it, leaving `}` as the last non-whitespace character. -/
theorem C8_no_trailing_separator (fname : String) (cs : List Char) (limit : Option Nat)
    (skip : Nat) (out : String) (h : main_pipeline fname cs limit skip = some out) :
    (rstripStr out).data.getLast? ≠ some ';' := by
  unfold main_pipeline at h
  cases hs : stream_json_array cs limit with
  | none => rw [hs] at h; simp at h
  | some r =>
    rw [hs] at h
    dsimp only at h
    cases hb : (r.1.drop skip).mapM process_issue with
    | none => rw [hb] at h; simp at h
    | some blocks =>
      rw [hb] at h
      replace h : (if blocks.flatten.isEmpty then some (header_lines fname)
          else some (header_lines fname ++
            (if (rstripStr (join_strings blocks.flatten)).data.getLast? == some ';' then
              String.mk (rstripStr (join_strings blocks.flatten)).data.dropLast
            else rstripStr (join_strings blocks.flatten)) ++ "\n")) = some out := h
      by_cases hfe : blocks.flatten.isEmpty
      · rw [if_pos hfe] at h
        simp only [Option.some.injEq] at h
        subst h
        -- the header ends "...data/\n\n"
        have hdat : (header_lines fname).data =
            (("# SPARQL INSERT statements generated from ").data ++ (fname.data ++
              (("\n# Namespace: http://knowledge.graph/ontology/narrative#" ++
                "\n# Base URI: http://knowledge.graph/data").data))) ++ ['/'] ++ ['\n', '\n'] := by
          unfold header_lines NAMESPACE BASE_URI
          simp only [String.data_append, List.append_assoc]
          congr 1
        show (rstripWSl (header_lines fname).data).getLast? ≠ some ';'
        rw [hdat, rstripWSl_split _ '/' ['\n', '\n'] (by decide) (by decide)]
        rw [List.getLast?_concat]
        simp
      · rw [if_neg hfe] at h
        simp only [Option.some.injEq] at h
        -- the joined blocks end with the block terminator
        have hasblocks : ∀ b ∈ blocks, b = [] ∨ b.getLast? = some blockEnd := by
          intro b hbm
          obtain ⟨a, ha⟩ := mapM_option_mem process_issue (r.1.drop skip) blocks hb b hbm
          exact process_issue_last a b ha
        rcases flatten_last_blockEnd blocks hasblocks with hf | hf
        · rw [hf] at hfe; simp at hfe
        · obtain ⟨ys, hys⟩ := List.getLast?_eq_some_iff.mp hf
          -- character-level shape of the joined text
          have hbe : blockEnd.data = [cbrace, ' ', ';', '\n', '\n'] := by decide
          have hjoin : (join_strings blocks.flatten).data =
              ((ys.map String.data).flatten ++ [cbrace, ' ']) ++ [';'] ++ ['\n', '\n'] := by
            unfold join_strings
            rw [hys]
            simp only [List.map_append, List.flatten_append, List.map_cons, List.map_nil,
              List.flatten_cons, List.flatten_nil, List.append_nil, hbe]
            simp
          have hstrip : (rstripStr (join_strings blocks.flatten)).data =
              ((ys.map String.data).flatten ++ [cbrace, ' ']) ++ [';'] := by
            show rstripWSl (join_strings blocks.flatten).data = _
            rw [hjoin]
            exact rstripWSl_split _ ';' ['\n', '\n'] (by decide) (by decide)
          have hcondsemi : ((rstripStr (join_strings blocks.flatten)).data.getLast? ==
              some ';') = true := by
            rw [hstrip, List.getLast?_concat]
            simp
          rw [hcondsemi, if_pos rfl] at h
          have hdrop : (rstripStr (join_strings blocks.flatten)).data.dropLast =
              (ys.map String.data).flatten ++ [cbrace, ' '] := by
            rw [hstrip, List.dropLast_concat]
          have hout : out.data = ((header_lines fname).data ++
              (ys.map String.data).flatten) ++ [cbrace] ++ [' ', '\n'] := by
            rw [← h]
            simp only [String.data_append, hdrop]
            show ((header_lines fname).data ++
              ((ys.map String.data).flatten ++ [cbrace, ' '])) ++ ['\n'] = _
            simp
          show (rstripWSl out.data).getLast? ≠ some ';'
          rw [hout, rstripWSl_split _ cbrace [' ', '\n'] (by decide) (by decide),
            List.getLast?_concat]
          simp
          decide

/-- Concrete single-record input for the C8 witness. -/
def c8_input : List Char := ("[\n\x7b\"id\": \"x\"\x7d\n]").data

/-- The driver's output on the C8 witness input. -/
def c8_out : String := (main_pipeline ("f.sparql") c8_input none 0).getD ""

/-- Witness for C8 at a concrete run that emits one block. -/
theorem C8_witness : (rstripStr c8_out).data.getLast? ≠ some ';' :=
  C8_no_trailing_separator ("f.sparql") c8_input none 0 c8_out (by rfl)

/-! ## C7: tone inference priority order -/

/-- Characterization of `infer_tone` once the three lowered inputs are
known: it is exactly the priority cascade of the source. -/
theorem infer_tone_eq (sd : Json) (name desc : String) (gs : List String)
    (hn : getLowerStr sd "name" = some name)
    (hd : getLowerStr sd "desc" = some desc)
    (hg : toneGenres sd = some gs) :
    infer_tone sd =
      (if anyKw darkWords (name ++ desc) then some ("Dark")
       else if anyKw comedyWords (name ++ desc) then some ("Comedic")
       else if anyKw wholesomeWords (name ++ desc) then some ("Wholesome")
       else if gs.contains ("horror") || anyKw horrorWords (name ++ desc) then some ("Dark")
       else some ("Dramatic")) := by
  unfold infer_tone
  simp only [Option.bind_eq_bind]
  rw [hn, Option.some_bind, hd, Option.some_bind, hg, Option.some_bind]
  rfl

/-- C7: `infer_tone` lower-cases the series name, description and genre
names (the lowering happens inside `getLowerStr` and `toneGenres`) and
tests the fixed keyword sets in priority order: dark keywords first, then
comedic, then wholesome, then the horror genre or horror keywords flagged
as Dark, defaulting to Dramatic; the first match wins. In particular the
record with name "Dark Nights" (empty desc, no genres) maps to "Dark",
"Fun Adventures" to "Wholesome" (via the wholesome keyword "fun"), and
"Ordinary Tales" to "Dramatic". -/
theorem C7_infer_tone_priority :
    (infer_tone (Json.obj [("name", Json.str "Dark Nights"), ("desc", Json.str ""),
        ("genres", Json.arr [])]) = some ("Dark")) ∧
    (infer_tone (Json.obj [("name", Json.str "Fun Adventures"), ("desc", Json.str ""),
        ("genres", Json.arr [])]) = some ("Wholesome")) ∧
    (infer_tone (Json.obj [("name", Json.str "Ordinary Tales"), ("desc", Json.str ""),
        ("genres", Json.arr [])]) = some ("Dramatic")) ∧
    (∀ sd name desc gs,
      getLowerStr sd "name" = some name →
      getLowerStr sd "desc" = some desc →
      toneGenres sd = some gs →
      ((anyKw darkWords (name ++ desc) = true → infer_tone sd = some ("Dark")) ∧
       (anyKw darkWords (name ++ desc) = false →
          anyKw comedyWords (name ++ desc) = true →
          infer_tone sd = some ("Comedic")) ∧
       (anyKw darkWords (name ++ desc) = false →
          anyKw comedyWords (name ++ desc) = false →
          anyKw wholesomeWords (name ++ desc) = true →
          infer_tone sd = some ("Wholesome")) ∧
       (anyKw darkWords (name ++ desc) = false →
          anyKw comedyWords (name ++ desc) = false →
          anyKw wholesomeWords (name ++ desc) = false →
          (gs.contains ("horror") || anyKw horrorWords (name ++ desc)) = true →
          infer_tone sd = some ("Dark")) ∧
       (anyKw darkWords (name ++ desc) = false →
          anyKw comedyWords (name ++ desc) = false →
          anyKw wholesomeWords (name ++ desc) = false →
          (gs.contains ("horror") || anyKw horrorWords (name ++ desc)) = false →
          infer_tone sd = some ("Dramatic")))) := by
  refine ⟨by rfl, by rfl, by rfl, ?_⟩
  intro sd name desc gs hn hd hg
  have key := infer_tone_eq sd name desc gs hn hd hg
  refine ⟨?_, ?_, ?_, ?_, ?_⟩
  · intro h1
    rw [key]; simp [h1]
  · intro h1 h2
    rw [key]; simp [h1, h2]
  · intro h1 h2 h3
    rw [key]; simp [h1, h2, h3]
  · intro h1 h2 h3 h4
    rw [key]; simp [h1, h2, h3]
    intro hng
    rcases (by simpa using h4 : "horror" ∈ gs ∨ anyKw horrorWords (name ++ desc) = true) with
      hmem | hkw
    · exact absurd hmem hng
    · exact hkw
  · intro h1 h2 h3 h4
    rw [key]; simp [h1, h2, h3]
    simpa using h4

/-- Witness for C7 at a record whose lowered name matches both the dark and
the comedic keyword lists: the dark branch wins, showing the priority
order. -/
theorem C7_witness :
    infer_tone (Json.obj [("name", Json.str "Dark Comedy"), ("desc", Json.str ""),
      ("genres", Json.arr [])]) = some ("Dark") :=
  (C7_infer_tone_priority.2.2.2 (Json.obj [("name", Json.str "Dark Comedy"),
      ("desc", Json.str ""), ("genres", Json.arr [])]) ("dark comedy") ("") []
      (by rfl) (by rfl) (by rfl)).1 (by rfl)

/-! ## C10: empty universe names are skipped, series and characters raise -/

/-- C10: a universe record whose `name` is absent or the empty string makes
`generate_universe_triples` return the empty triple list without error,
whereas a record with an absent `name` makes `generate_series_triples` and
`generate_character_triples` raise (return `none`: the Python code indexes
`["name"]` unconditionally). -/
theorem C10_universe_empty_name :
    (∀ d : Json,
        pyGet d "name" = some none ∨ pyGet d "name" = some (some (Json.str "")) →
        generate_universe_triples d = some []) ∧
    (∀ sid d : Json, pyGet d "name" = some none → generate_series_triples sid d = none) ∧
    (∀ d sid iid : Json, pyGet d "name" = some none →
        generate_character_triples d sid iid = none) := by
  refine ⟨?_, ?_, ?_⟩
  · intro d h
    obtain ⟨fs, rfl⟩ : ∃ fs, d = Json.obj fs := by
      rcases h with h | h <;> cases d <;> simp [pyGet] at h <;> exact ⟨_, rfl⟩
    have hname2 : lookupField fs "name" = none ∨ lookupField fs "name" = some (Json.str "") := by
      rcases h with h | h
      · exact Or.inl (by simpa [pyGet] using h)
      · exact Or.inr (by simpa [pyGet] using h)
    have h1 : pyGetD (Json.obj fs) "name" (Json.str "") = some (Json.str "") := by
      rcases hname2 with h' | h' <;> simp [pyGetD, pyGet, h']
    have h2 : ∃ v, pyGetD (Json.obj fs) "name" Json.null = some v ∧ truthy v = false := by
      rcases hname2 with h' | h'
      · exact ⟨Json.null, by simp [pyGetD, pyGet, h'], rfl⟩
      · exact ⟨Json.str "", by simp [pyGetD, pyGet, h'], rfl⟩
    have hu : ∃ u, pyGetD (Json.obj fs) "id" (Json.str (safe_uri (Json.str ""))) = some u := by
      cases hid : lookupField fs "id" with
      | none => exact ⟨Json.str (safe_uri (Json.str "")), by simp [pyGetD, pyGet, hid]⟩
      | some x => exact ⟨x, by simp [pyGetD, pyGet, hid]⟩
    obtain ⟨u, hu⟩ := hu
    obtain ⟨v, hv, hvf⟩ := h2
    simp [generate_universe_triples, h1, hu, hv, hvf]
  · intro sid d h
    obtain ⟨fs, rfl⟩ : ∃ fs, d = Json.obj fs := by
      cases d <;> simp [pyGet] at h <;> exact ⟨_, rfl⟩
    have hname : lookupField fs "name" = none := by simpa [pyGet] using h
    have hidx : pyIndex (Json.obj fs) "name" = none := by simp [pyIndex, hname]
    simp [generate_series_triples, hidx]
  · intro d sid iid h
    obtain ⟨fs, rfl⟩ : ∃ fs, d = Json.obj fs := by
      cases d <;> simp [pyGet] at h <;> exact ⟨_, rfl⟩
    have hname : lookupField fs "name" = none := by simpa [pyGet] using h
    have hidx : pyIndex (Json.obj fs) "name" = none := by simp [pyIndex, hname]
    cases hid : lookupField fs "id" with
    | none =>
      simp [generate_character_triples, pyGetD, pyGet, hid, hidx, truthy]
    | some x =>
      cases hx : truthy x <;>
        simp [generate_character_triples, pyGetD, pyGet, hid, hidx, hx]

/-- Witness for C10 at a record that has an id but no name. -/
theorem C10_witness :
    generate_universe_triples (Json.obj [("id", Json.str "u1")]) = some [] ∧
    generate_series_triples (Json.str "7") (Json.obj [("id", Json.str "u1")]) = none ∧
    generate_character_triples (Json.obj [("id", Json.str "u1")]) Json.null Json.null = none :=
  ⟨C10_universe_empty_name.1 (Json.obj [("id", Json.str "u1")]) (Or.inl (by rfl)),
   C10_universe_empty_name.2.1 (Json.str "7") (Json.obj [("id", Json.str "u1")]) (by rfl),
   C10_universe_empty_name.2.2 (Json.obj [("id", Json.str "u1")]) Json.null Json.null (by rfl)⟩

/-! ## C5: the first two triples of each entity generator -/

/-- Counterexample for C5: two accepted records violate "type then label
first". A credit block's second triple is the person-to-credit link (and
this concrete credit block contains no rdfs:label triple anywhere), and an
issue record without an issue name yields a block whose second triple is
the manifestation type assertion, not a label of the issue. -/
theorem C5_counterexample :
    (∃ ts, generate_credit_triples (Json.str "1")
        (Json.obj [("id", Json.str "9"), ("creator", Json.str "X")]) 0 = some ts ∧
      ts[1]? = some ("<http://knowledge.graph/data/person/9> <http://knowledge.graph/ontology/narrative#hasCreditRelationship> <http://knowledge.graph/data/credit/1_9_0> .") ∧
      ts.all (fun t => !strIn ("rdf-schema#label") t) = true) ∧
    (∃ ts, generate_issue_triples (Json.obj [("id", Json.str "5")]) = some ts ∧
      ts[1]? = some ("<http://knowledge.graph/data/manifestation/issue_5> a <http://knowledge.graph/ontology/narrative#Manifestation> .")) :=
  ⟨⟨_, rfl, rfl, rfl⟩, ⟨_, rfl, rfl⟩⟩

/-- C5 (amended): the person, org, series, character, group and universe
generators start with a type-assertion triple followed by an rdfs:label
triple (universe: on records it does not skip); the issue generator starts
with them when the record has a truthy issue name; the credit generator
starts with the type assertion followed by the person-to-credit link
triple. -/
theorem C5_type_then_label :
    (∀ cid cname : Json, (generate_person_triples cid cname).take 2 =
      [ ("<" ++ BASE_URI ++ "person/" ++ pyStr cid ++ ">") ++ " a <" ++ NAMESPACE ++
          "Person> ."
      , ("<" ++ BASE_URI ++ "person/" ++ pyStr cid ++ ">") ++
          " <http://www.w3.org/2000/01/rdf-schema#label> \"" ++
          escape_sparql_string cname ++ "\" ." ]) ∧
    (∀ (oid oname : Json) (ot : String), (generate_org_triples oid oname ot).take 2 =
      [ ("<" ++ BASE_URI ++ "org/" ++ pyStr oid ++ ">") ++ " a <" ++ NAMESPACE ++ "Org> ."
      , ("<" ++ BASE_URI ++ "org/" ++ pyStr oid ++ ">") ++
          " <http://www.w3.org/2000/01/rdf-schema#label> \"" ++
          escape_sparql_string oname ++ "\" ." ]) ∧
    (∀ (sid d : Json) (ts : List String), generate_series_triples sid d = some ts →
      ∃ nameJ, pyIndex d "name" = some nameJ ∧ ts.take 2 =
        [ ("<" ++ BASE_URI ++ "work/series_" ++ pyStr sid ++ ">") ++ " a <" ++ NAMESPACE ++
            "StoryWork> ."
        , ("<" ++ BASE_URI ++ "work/series_" ++ pyStr sid ++ ">") ++
            " <http://www.w3.org/2000/01/rdf-schema#label> \"" ++
            escape_sparql_string nameJ ++ "\" ." ]) ∧
    (∀ (d : Json) (ts : List String) (inJ : Json), generate_issue_triples d = some ts →
      pyGetD d "issue_name" Json.null = some inJ → truthy inJ = true →
      ∃ iid, pyIndex d "id" = some iid ∧ ts.take 2 =
        [ ("<" ++ BASE_URI ++ "expression/issue_" ++ pyStr iid ++ ">") ++ " a <" ++
            NAMESPACE ++ "StoryExpression> ."
        , ("<" ++ BASE_URI ++ "expression/issue_" ++ pyStr iid ++ ">") ++
            " <http://www.w3.org/2000/01/rdf-schema#label> \"" ++
            escape_sparql_string inJ ++ "\" ." ]) ∧
    (∀ (iid c : Json) (ci : Nat) (ts : List String),
      generate_credit_triples iid c ci = some ts →
      ∃ cid, pyIndex c "id" = some cid ∧ ts.take 2 =
        [ ("<" ++ BASE_URI ++ "credit/" ++ pyStr iid ++ "_" ++ pyStr cid ++ "_" ++
            toString ci ++ ">") ++ " a <" ++ NAMESPACE ++ "CreditRelationship> ."
        , ("<" ++ BASE_URI ++ "person/" ++ pyStr cid ++ ">") ++ " <" ++ NAMESPACE ++
            "hasCreditRelationship> " ++ ("<" ++ BASE_URI ++ "credit/" ++ pyStr iid ++
            "_" ++ pyStr cid ++ "_" ++ toString ci ++ ">") ++ " ." ]) ∧
    (∀ (d sid iid : Json) (ts : List String),
      generate_character_triples d sid iid = some ts →
      ∃ u nameJ, pyIndex d "name" = some nameJ ∧ ts.take 2 =
        [ u ++ " a <" ++ NAMESPACE ++ "Character> ."
        , u ++ " <http://www.w3.org/2000/01/rdf-schema#label> \"" ++
            escape_sparql_string nameJ ++ "\" ." ]) ∧
    (∀ (d : Json) (ts : List String), generate_group_triples d = some ts →
      ∃ u nmJ, pyIndex d "name" = some nmJ ∧ ts.take 2 =
        [ u ++ " a <" ++ NAMESPACE ++ "Group> ."
        , u ++ " <http://www.w3.org/2000/01/rdf-schema#label> \"" ++
            escape_sparql_string nmJ ++ "\" ." ]) ∧
    (∀ (d : Json) (ts : List String), generate_universe_triples d = some ts → ts ≠ [] →
      ∃ u nameJ, pyIndex d "name" = some nameJ ∧ ts.take 2 =
        [ u ++ " a <" ++ NAMESPACE ++ "Universe> ."
        , u ++ " <http://www.w3.org/2000/01/rdf-schema#label> \"" ++
            escape_sparql_string nameJ ++ "\" ." ]) := by
  refine ⟨fun cid cname => rfl, fun oid oname ot => rfl, ?_, ?_, ?_, ?_, ?_, ?_⟩
  · intro sid d ts h
    unfold generate_series_triples at h
    simp only [Option.bind_eq_bind, Option.bind_eq_some, Option.pure_def,
      Option.some.injEq] at h
    obtain ⟨nameJ, hn, tScal, hScal, tST, hST, tGen, hGen, tPub, hPub,
      tDesc, hDesc, si, hsi, tTone, hTone, tTheme, hTheme, hts⟩ := h
    refine ⟨nameJ, hn, ?_⟩
    rw [← hts]
    simp [List.take]
  · intro d ts inJ h hin htr
    unfold generate_issue_triples at h
    simp only [Option.bind_eq_bind, Option.bind_eq_some, Option.pure_def,
      Option.some.injEq] at h
    obtain ⟨iid, hiid, t1, h1, t2, h2, t3, h3, t4, h4, hts⟩ := h
    unfold issue_scalar_triples1 at h1
    simp only [Option.bind_eq_bind, Option.bind_eq_some, Option.pure_def,
      Option.some.injEq] at h1
    obtain ⟨inJ', hin', numJ, hnum, cdJ, hcd, sdJ, hsd, prJ, hpr, pcJ, hpc, ht1⟩ := h1
    obtain rfl : inJ = inJ' := Option.some.inj (hin.symm.trans hin')
    simp only [htr, if_true] at ht1
    refine ⟨iid, hiid, ?_⟩
    rw [← hts, ← ht1]
    simp [List.take]
  · intro iid c ci ts h
    unfold generate_credit_triples at h
    simp only [Option.bind_eq_bind, Option.bind_eq_some, Option.pure_def,
      Option.some.injEq] at h
    obtain ⟨cid, hcid, creatorJ, hcr, rolesJ, hroles, roles, hiter, rls, hmap, hts⟩ := h
    refine ⟨cid, hcid, ?_⟩
    rw [← hts]
    simp [List.take]
  · intro d sid iid ts h
    unfold generate_character_triples at h
    simp only [Option.bind_eq_bind, Option.bind_eq_some, Option.pure_def,
      Option.some.injEq] at h
    obtain ⟨cid0, hcid0, char_id, hchar, nameJ, hname, t1, h1, t2, h2, t3, h3, hts⟩ := h
    refine ⟨"<" ++ BASE_URI ++ "character/" ++ char_id ++ ">", nameJ, hname, ?_⟩
    rw [← hts]
    simp [List.take]
  · intro d ts h
    unfold generate_group_triples at h
    simp only [Option.bind_eq_bind, Option.bind_eq_some, Option.pure_def,
      Option.some.injEq] at h
    obtain ⟨nmJ, hnm, tidJ, htid, deJ, hde, tDesc, hD, hts⟩ := h
    refine ⟨"<" ++ BASE_URI ++ "group/" ++ pyStr tidJ ++ ">", nmJ, hnm, ?_⟩
    rw [← hts]
    simp [List.take]
  · intro d ts h hne
    unfold generate_universe_triples at h
    simp only [Option.bind_eq_bind, Option.bind_eq_some, Option.pure_def,
      Option.some.injEq] at h
    obtain ⟨nm0, h0, uidJ, hu, nmG, hg, hts⟩ := h
    cases hc : (!truthy uidJ || !truthy nmG) with
    | true =>
      simp [hc] at hts
      exact absurd hts hne
    | false =>
      simp only [hc, Bool.false_eq_true, if_false] at hts
      simp only [Option.bind_eq_bind, Option.bind_eq_some, Option.pure_def,
        Option.some.injEq] at hts
      obtain ⟨nameJ, hn, nameS, hs, deJ, hde, tDesc, hD, hts2⟩ := hts
      refine ⟨"<" ++ BASE_URI ++ "universe/" ++ pyStr uidJ ++ ">", nameJ, hn, ?_⟩
      rw [← hts2]
      simp [List.take]

/-- Witness for C5 at a concrete credit record: the amended first-two-triples
shape of the credit generator, with the person link in second position. -/
theorem C5_witness :
    ∃ cid, pyIndex (Json.obj [("id", Json.str "9"), ("creator", Json.str "X")])
        "id" = some cid ∧
      ((generate_credit_triples (Json.str "1")
          (Json.obj [("id", Json.str "9"), ("creator", Json.str "X")]) 0).getD
        []).take 2 =
      [ ("<" ++ BASE_URI ++ "credit/" ++ pyStr (Json.str "1") ++ "_" ++ pyStr cid ++
          "_" ++ toString 0 ++ ">") ++ " a <" ++ NAMESPACE ++ "CreditRelationship> ."
      , ("<" ++ BASE_URI ++ "person/" ++ pyStr cid ++ ">") ++ " <" ++ NAMESPACE ++
          "hasCreditRelationship> " ++ ("<" ++ BASE_URI ++ "credit/" ++
          pyStr (Json.str "1") ++ "_" ++ pyStr cid ++ "_" ++ toString 0 ++ ">") ++
          " ." ] :=
  C5_type_then_label.2.2.2.2.1 (Json.str "1")
    (Json.obj [("id", Json.str "9"), ("creator", Json.str "X")]) 0
    ((generate_credit_triples (Json.str "1")
      (Json.obj [("id", Json.str "9"), ("creator", Json.str "X")]) 0).getD [])
    (by rfl)

/-! ## C6: the synthetic ranking-score formulas -/

/-- Popularity formula of `generate_series_triples` (source lines 159–161):
min(1, (issue_count/500) * (max(1, 2025 - year_began)/20)). -/
def popularity_score (issue_count year_began : Frac) : Frac :=
  pymin (Frac.ofInt 1) (Frac.mul (Frac.div issue_count (Frac.ofInt 500))
    (Frac.div (pymax (Frac.ofInt 1) (Frac.sub (Frac.ofInt 2025) year_began))
      (Frac.ofInt 20)))

/-- Trending formula of the source (lines 164–168):
min(1, max(0, 1 - (2025 - year_began)/50) * (issue_count/100)). -/
def trending_score (issue_count year_began : Frac) : Frac :=
  pymin (Frac.ofInt 1)
    (Frac.mul
      (pymax (Frac.ofInt 0) (Frac.sub (Frac.ofInt 1)
        (Frac.div (Frac.sub (Frac.ofInt 2025) year_began) (Frac.ofInt 50))))
      (Frac.div issue_count (Frac.ofInt 100)))

/-- Engagement formula of the source (line 176):
min(1, (popularity + trending)/2). -/
def engagement_score (issue_count year_began : Frac) : Frac :=
  pymin (Frac.ofInt 1)
    (Frac.div (Frac.add (popularity_score issue_count year_began)
      (trending_score issue_count year_began)) (Frac.ofInt 2))

theorem Frac.den_ofInt (n : Int) : (Frac.ofInt n).den = 1 := rfl

theorem Frac.toRat_ofInt (n : Int) : (Frac.ofInt n).toRat = (n : ℚ) := by
  simp [Frac.ofInt, Frac.toRat]

theorem Frac.toRat_mul (a b : Frac) : (a.mul b).toRat = a.toRat * b.toRat := by
  simp only [Frac.mul, Frac.toRat]
  push_cast
  rw [div_mul_div_comm]

theorem Frac.toRat_add (a b : Frac) (ha : a.den ≠ 0) (hb : b.den ≠ 0) :
    (a.add b).toRat = a.toRat + b.toRat := by
  simp only [Frac.add, Frac.toRat]
  rw [div_add_div _ _ (by exact_mod_cast ha) (by exact_mod_cast hb)]
  push_cast
  ring_nf

theorem Frac.toRat_sub (a b : Frac) (ha : a.den ≠ 0) (hb : b.den ≠ 0) :
    (a.sub b).toRat = a.toRat - b.toRat := by
  simp only [Frac.sub, Frac.toRat]
  rw [div_sub_div _ _ (by exact_mod_cast ha) (by exact_mod_cast hb)]
  push_cast
  ring_nf

theorem Frac.toRat_div_ofInt (a : Frac) (k : Int) (ha : 0 < a.den) (hk : 0 < k) :
    (a.div (Frac.ofInt k)).toRat = a.toRat / (k : ℚ) := by
  simp only [Frac.div, Frac.ofInt, Frac.fixSign]
  rw [if_neg (by simp; positivity)]
  simp only [Frac.toRat]
  push_cast
  rw [mul_one, div_div]

theorem Frac.blt_iff (a b : Frac) (ha : 0 < a.den) (hb : 0 < b.den) :
    Frac.blt a b = true ↔ a.toRat < b.toRat := by
  simp only [Frac.blt, Frac.toRat, decide_eq_true_eq]
  rw [div_lt_div_iff₀ (by exact_mod_cast ha) (by exact_mod_cast hb)]
  constructor <;> intro h <;> exact_mod_cast h

theorem Frac.toRat_pymin (a b : Frac) (ha : 0 < a.den) (hb : 0 < b.den) :
    (pymin a b).toRat = min a.toRat b.toRat := by
  unfold pymin
  by_cases h : Frac.blt b a = true
  · rw [if_pos h, min_eq_right (le_of_lt ((Frac.blt_iff b a hb ha).mp h))]
  · rw [if_neg h, min_eq_left]
    exact not_lt.mp (fun hc => h ((Frac.blt_iff b a hb ha).mpr hc))

theorem Frac.toRat_pymax (a b : Frac) (ha : 0 < a.den) (hb : 0 < b.den) :
    (pymax a b).toRat = max a.toRat b.toRat := by
  unfold pymax
  by_cases h : Frac.blt a b = true
  · rw [if_pos h, max_eq_right (le_of_lt ((Frac.blt_iff a b ha hb).mp h))]
  · rw [if_neg h, max_eq_left]
    exact not_lt.mp (fun hc => h ((Frac.blt_iff a b ha hb).mpr hc))

theorem Frac.den_sub_pos {a b : Frac} (ha : 0 < a.den) (hb : 0 < b.den) :
    0 < (a.sub b).den := mul_pos ha hb

theorem Frac.den_add_pos {a b : Frac} (ha : 0 < a.den) (hb : 0 < b.den) :
    0 < (a.add b).den := mul_pos ha hb

theorem Frac.den_mul_pos {a b : Frac} (ha : 0 < a.den) (hb : 0 < b.den) :
    0 < (a.mul b).den := mul_pos ha hb

theorem Frac.den_div_ofInt_pos {a : Frac} {k : Int} (ha : 0 < a.den) (hk : 0 < k) :
    0 < (a.div (Frac.ofInt k)).den := by
  simp only [Frac.div, Frac.ofInt, Frac.fixSign]
  rw [if_neg (by simp; positivity)]
  exact mul_pos ha hk

theorem Frac.den_pymin_pos {a b : Frac} (ha : 0 < a.den) (hb : 0 < b.den) :
    0 < (pymin a b).den := by
  unfold pymin
  by_cases h : Frac.blt b a = true
  · rw [if_pos h]; exact hb
  · rw [if_neg h]; exact ha

theorem Frac.den_pymax_pos {a b : Frac} (ha : 0 < a.den) (hb : 0 < b.den) :
    0 < (pymax a b).den := by
  unfold pymax
  by_cases h : Frac.blt a b = true
  · rw [if_pos h]; exact hb
  · rw [if_neg h]; exact ha

/-- Every score value lies in the unit interval once the issue count is
nonnegative (and the fractions are well-formed with positive denominators):
the upper bound comes from the min-with-1, the lower one from the factors
being nonnegative. -/
theorem scores_bounds (ic yb : Frac) (hic : 0 < ic.den) (hyb : 0 < yb.den)
    (hnn : 0 ≤ ic.toRat) :
    (0 ≤ (popularity_score ic yb).toRat ∧ (popularity_score ic yb).toRat ≤ 1) ∧
    (0 ≤ (trending_score ic yb).toRat ∧ (trending_score ic yb).toRat ≤ 1) ∧
    (0 ≤ (engagement_score ic yb).toRat ∧ (engagement_score ic yb).toRat ≤ 1) := by
  have h1 : (0:Int) < 1 := one_pos
  have hsden : 0 < (Frac.sub (Frac.ofInt 2025) yb).den :=
    Frac.den_sub_pos (by rw [Frac.den_ofInt]; exact h1) hyb
  have hyaden : 0 < (pymax (Frac.ofInt 1) (Frac.sub (Frac.ofInt 2025) yb)).den :=
    Frac.den_pymax_pos (by rw [Frac.den_ofInt]; exact h1) hsden
  have hya : (pymax (Frac.ofInt 1) (Frac.sub (Frac.ofInt 2025) yb)).toRat =
      max 1 ((2025 : ℚ) - yb.toRat) := by
    rw [Frac.toRat_pymax _ _ (by rw [Frac.den_ofInt]; exact h1) hsden,
      Frac.toRat_sub _ _ (by rw [Frac.den_ofInt]; exact one_ne_zero) (ne_of_gt hyb),
      Frac.toRat_ofInt, Frac.toRat_ofInt]
    norm_num
  have hya1 : 1 ≤ (pymax (Frac.ofInt 1) (Frac.sub (Frac.ofInt 2025) yb)).toRat := by
    rw [hya]; exact le_max_left _ _
  have hd1den : 0 < (Frac.div ic (Frac.ofInt 500)).den :=
    Frac.den_div_ofInt_pos hic (by norm_num)
  have hd2den : 0 < (Frac.div (pymax (Frac.ofInt 1) (Frac.sub (Frac.ofInt 2025) yb))
      (Frac.ofInt 20)).den := Frac.den_div_ofInt_pos hyaden (by norm_num)
  have hmden : 0 < (Frac.mul (Frac.div ic (Frac.ofInt 500))
      (Frac.div (pymax (Frac.ofInt 1) (Frac.sub (Frac.ofInt 2025) yb))
        (Frac.ofInt 20))).den := Frac.den_mul_pos hd1den hd2den
  have hmval : 0 ≤ (Frac.mul (Frac.div ic (Frac.ofInt 500))
      (Frac.div (pymax (Frac.ofInt 1) (Frac.sub (Frac.ofInt 2025) yb))
        (Frac.ofInt 20))).toRat := by
    rw [Frac.toRat_mul, Frac.toRat_div_ofInt _ _ hic (by norm_num),
      Frac.toRat_div_ofInt _ _ hyaden (by norm_num)]
    apply mul_nonneg
    · apply div_nonneg hnn; norm_num
    · apply div_nonneg (le_trans zero_le_one hya1); norm_num
  have hpopden : 0 < (popularity_score ic yb).den :=
    Frac.den_pymin_pos (by rw [Frac.den_ofInt]; exact h1) hmden
  have hpop : (popularity_score ic yb).toRat = min 1 ((Frac.mul
      (Frac.div ic (Frac.ofInt 500))
      (Frac.div (pymax (Frac.ofInt 1) (Frac.sub (Frac.ofInt 2025) yb))
        (Frac.ofInt 20))).toRat) := by
    unfold popularity_score
    rw [Frac.toRat_pymin _ _ (by rw [Frac.den_ofInt]; exact h1) hmden, Frac.toRat_ofInt]
    norm_num
  have hpopb : 0 ≤ (popularity_score ic yb).toRat ∧ (popularity_score ic yb).toRat ≤ 1 := by
    rw [hpop]
    exact ⟨le_min zero_le_one hmval, min_le_left _ _⟩
  have hrden : 0 < (pymax (Frac.ofInt 0) (Frac.sub (Frac.ofInt 1)
      (Frac.div (Frac.sub (Frac.ofInt 2025) yb) (Frac.ofInt 50)))).den :=
    Frac.den_pymax_pos (by rw [Frac.den_ofInt]; exact h1)
      (Frac.den_sub_pos (by rw [Frac.den_ofInt]; exact h1)
        (Frac.den_div_ofInt_pos hsden (by norm_num)))
  have hrval : 0 ≤ (pymax (Frac.ofInt 0) (Frac.sub (Frac.ofInt 1)
      (Frac.div (Frac.sub (Frac.ofInt 2025) yb) (Frac.ofInt 50)))).toRat := by
    rw [Frac.toRat_pymax _ _ (by rw [Frac.den_ofInt]; exact h1)
      (Frac.den_sub_pos (by rw [Frac.den_ofInt]; exact h1)
        (Frac.den_div_ofInt_pos hsden (by norm_num))), Frac.toRat_ofInt]
    norm_num [le_max_left]
  have hicval : 0 ≤ (Frac.div ic (Frac.ofInt 100)).toRat := by
    rw [Frac.toRat_div_ofInt _ _ hic (by norm_num)]
    apply div_nonneg hnn; norm_num
  have htden : 0 < (Frac.mul (pymax (Frac.ofInt 0) (Frac.sub (Frac.ofInt 1)
      (Frac.div (Frac.sub (Frac.ofInt 2025) yb) (Frac.ofInt 50))))
      (Frac.div ic (Frac.ofInt 100))).den :=
    Frac.den_mul_pos hrden (Frac.den_div_ofInt_pos hic (by norm_num))
  have htval : 0 ≤ (Frac.mul (pymax (Frac.ofInt 0) (Frac.sub (Frac.ofInt 1)
      (Frac.div (Frac.sub (Frac.ofInt 2025) yb) (Frac.ofInt 50))))
      (Frac.div ic (Frac.ofInt 100))).toRat := by
    rw [Frac.toRat_mul]
    exact mul_nonneg hrval hicval
  have htrden : 0 < (trending_score ic yb).den :=
    Frac.den_pymin_pos (by rw [Frac.den_ofInt]; exact h1) htden
  have htrb : 0 ≤ (trending_score ic yb).toRat ∧ (trending_score ic yb).toRat ≤ 1 := by
    unfold trending_score
    rw [Frac.toRat_pymin _ _ (by rw [Frac.den_ofInt]; exact h1) htden, Frac.toRat_ofInt,
      Int.cast_one]
    exact ⟨le_min zero_le_one htval, min_le_left _ _⟩
  have haden : 0 < ((popularity_score ic yb).add (trending_score ic yb)).den :=
    Frac.den_add_pos hpopden htrden
  have heval : 0 ≤ (Frac.div ((popularity_score ic yb).add (trending_score ic yb))
      (Frac.ofInt 2)).toRat := by
    rw [Frac.toRat_div_ofInt _ _ haden (by norm_num),
      Frac.toRat_add _ _ (ne_of_gt hpopden) (ne_of_gt htrden)]
    apply div_nonneg (add_nonneg hpopb.1 htrb.1); norm_num
  have hengb : 0 ≤ (engagement_score ic yb).toRat ∧ (engagement_score ic yb).toRat ≤ 1 := by
    unfold engagement_score
    rw [Frac.toRat_pymin _ _ (by rw [Frac.den_ofInt]; exact h1)
      (Frac.den_div_ofInt_pos haden (by norm_num)), Frac.toRat_ofInt, Int.cast_one]
    exact ⟨le_min zero_le_one heval, min_le_left _ _⟩
  exact ⟨hpopb, htrb, hengb⟩

/-- Embedding of a list between two surrounding chunks of an append chain. -/
theorem infix_mid (A B C D E F G H R : List String) :
    List.IsInfix R (A ++ B ++ C ++ D ++ E ++ F ++ R ++ G ++ H) :=
  ⟨A ++ B ++ C ++ D ++ E ++ F, G ++ H, by simp [List.append_assoc]⟩

/-- Counterexample for C6: the scores are not clamped to the unit interval.
With a negative issue count the popularity literal emitted by the series
generator is "-2.500" (the min-with-1 clamps only from above), and the
popularity value itself is negative. -/
theorem C6_counterexample :
    ∃ ts, generate_series_triples (Json.str "1")
        (Json.obj [("name", Json.str "X"),
          ("count_of_issues", Json.num (Frac.ofInt (-1000)))]) = some ts ∧
      ts[4]? = some ("<http://knowledge.graph/data/work/series_1> <http://knowledge.graph/ontology/narrative#popularityScore> \"-2.500\"^^<http://www.w3.org/2001/XMLSchema#float> .") ∧
      (popularity_score (Frac.ofInt (-1000)) (Frac.ofInt 2000)).toRat < 0 :=
  ⟨_, rfl, rfl, by
    norm_num [show popularity_score (Frac.ofInt (-1000)) (Frac.ofInt 2000) =
      (⟨-25000, 10000⟩ : Frac) from rfl, Frac.toRat]⟩

/-- C6 (amended): the series generator emits exactly the four ranking
triples computed from the parsed score inputs (issue count defaulting to 1,
year began defaulting to 2000, current year fixed at 2025); the literals
are the three-decimal renderings of popularity = min(1, (ic/500) *
(max(1, 2025 - yb)/20)), trending = min(1, max(0, 1 - (2025 - yb)/50) *
(ic/100)), engagement = min(1, (popularity + trending)/2), and the
completion literal is "0.85" when year_ended is truthy and "0.70"
otherwise. Each score is clamped from above by 1, and lies in the unit
interval whenever the issue count is nonnegative — but not for every
input (see the counterexample). -/
theorem C6_score_formulas :
    (∀ (sid d : Json) (ts : List String) (ic yb : Frac) (ye : Bool),
      generate_series_triples sid d = some ts →
      series_score_inputs d = some (ic, yb, ye) →
      List.IsInfix (ranking_triples
        ("<" ++ BASE_URI ++ "work/series_" ++ pyStr sid ++ ">") ic yb ye) ts) ∧
    (∀ (u : String) (ic yb : Frac) (ye : Bool),
      ranking_triples u ic yb ye =
      [ u ++ " <" ++ NAMESPACE ++ "popularityScore> \"" ++
          fmtFixed 3 (popularity_score ic yb) ++
          "\"^^<http://www.w3.org/2001/XMLSchema#float> ."
      , u ++ " <" ++ NAMESPACE ++ "trendingScore> \"" ++
          fmtFixed 3 (trending_score ic yb) ++
          "\"^^<http://www.w3.org/2001/XMLSchema#float> ."
      , u ++ " <" ++ NAMESPACE ++ "completionRate> \"" ++
          (if ye then "0.85" else "0.70") ++
          "\"^^<http://www.w3.org/2001/XMLSchema#float> ."
      , u ++ " <" ++ NAMESPACE ++ "engagementScore> \"" ++
          fmtFixed 3 (engagement_score ic yb) ++
          "\"^^<http://www.w3.org/2001/XMLSchema#float> ." ]) ∧
    (∀ d : Json, pyGet d "count_of_issues" = some none →
      pyGet d "year_began" = some none →
      ∃ b, series_score_inputs d = some (Frac.ofInt 1, Frac.ofInt 2000, b)) ∧
    (∀ ic yb : Frac, 0 < ic.den → 0 < yb.den → 0 ≤ ic.toRat →
      (0 ≤ (popularity_score ic yb).toRat ∧ (popularity_score ic yb).toRat ≤ 1) ∧
      (0 ≤ (trending_score ic yb).toRat ∧ (trending_score ic yb).toRat ≤ 1) ∧
      (0 ≤ (engagement_score ic yb).toRat ∧ (engagement_score ic yb).toRat ≤ 1)) := by
  refine ⟨?_, ?_, ?_, scores_bounds⟩
  · intro sid d ts ic yb ye h hsi
    unfold generate_series_triples at h
    simp only [Option.bind_eq_bind, Option.bind_eq_some, Option.pure_def,
      Option.some.injEq] at h
    obtain ⟨nameJ, hn, tScal, hScal, tST, hST, tGen, hGen, tPub, hPub,
      tDesc, hDesc, si, hsi2, tTone, hTone, tTheme, hTheme, hts⟩ := h
    obtain rfl : si = (ic, yb, ye) := Option.some.inj (hsi2.symm.trans hsi)
    rw [← hts]
    exact infix_mid _ _ _ _ _ _ _ _ _
  · intro u ic yb ye
    cases ye <;> rfl
  · intro d h1 h2
    obtain ⟨fs, rfl⟩ : ∃ fs, d = Json.obj fs := by
      cases d <;> simp [pyGet] at h1 <;> exact ⟨_, rfl⟩
    have hc : lookupField fs "count_of_issues" = none := by simpa [pyGet] using h1
    have hy : lookupField fs "year_began" = none := by simpa [pyGet] using h2
    have hye : ∃ v, pyGetD (Json.obj fs) "year_ended" Json.null = some v := by
      cases hv : lookupField fs "year_ended" with
      | none => exact ⟨Json.null, by simp [pyGetD, pyGet, hv]⟩
      | some x => exact ⟨x, by simp [pyGetD, pyGet, hv]⟩
    obtain ⟨v, hv⟩ := hye
    have hcD : pyGetD (Json.obj fs) "count_of_issues" (Json.num (Frac.ofInt 1)) =
        some (Json.num (Frac.ofInt 1)) := by simp [pyGetD, pyGet, hc]
    have hyD : pyGetD (Json.obj fs) "year_began" (Json.num (Frac.ofInt 2000)) =
        some (Json.num (Frac.ofInt 2000)) := by simp [pyGetD, pyGet, hy]
    refine ⟨truthy v, ?_⟩
    simp [series_score_inputs, hcD, hyD, hv, jnum]

/-- Witness for C6 at concrete score inputs (200 issues, began 2015): all
three computed scores lie in the unit interval. -/
theorem C6_witness :
    (0 ≤ (popularity_score (Frac.ofInt 200) (Frac.ofInt 2015)).toRat ∧
      (popularity_score (Frac.ofInt 200) (Frac.ofInt 2015)).toRat ≤ 1) ∧
    (0 ≤ (trending_score (Frac.ofInt 200) (Frac.ofInt 2015)).toRat ∧
      (trending_score (Frac.ofInt 200) (Frac.ofInt 2015)).toRat ≤ 1) ∧
    (0 ≤ (engagement_score (Frac.ofInt 200) (Frac.ofInt 2015)).toRat ∧
      (engagement_score (Frac.ofInt 200) (Frac.ofInt 2015)).toRat ≤ 1) :=
  C6_score_formulas.2.2.2 (Frac.ofInt 200) (Frac.ofInt 2015) (by decide) (by decide)
    (by norm_num [Frac.toRat, Frac.ofInt])
